import Mathlib

/-!
Verification development for the file-selection and configuration-resolution
core of the hatch build backend (`hatchling/builders/config.py`).

The Python code is shallowly embedded: configuration values parsed from TOML
become an inductive `JVal`; Python dicts become ordered association lists
(keys unique in practice, insertion order preserved); raising code returns
`Except ConfErr`; the `pathspec` matcher library (an external dependency the
repository only calls) is modelled from the specification's description of
gitignore-style matching.
-/

set_option autoImplicit false

namespace Hatch

/-- A parsed configuration value, the shallow embedding of the Python values
that can appear in the build configuration tables. -/
inductive JVal where
  | str (s : String)
  | bool (b : Bool)
  | int (n : Int)
  | list (xs : List JVal)
  | dict (xs : List (String × JVal))

/-- Python truthiness (`bool(v)`): `False`, `0`, `''`, `[]` and `{}` are
falsy, everything else is truthy. -/
def truthy : JVal → Bool
  | .str s => s ≠ ""
  | .bool b => b
  | .int n => n ≠ 0
  | .list xs => !xs.isEmpty
  | .dict xs => !xs.isEmpty

/-- First binding of a key in an association-list dictionary
(Python `d[k]` / `k in d` lookup). -/
def dictFind (d : List (String × JVal)) (k : String) : Option JVal :=
  match d with
  | [] => none
  | (k', v) :: rest => if k' = k then some v else dictFind rest k

/-- Python `k in d`. -/
def dictContains (d : List (String × JVal)) (k : String) : Bool :=
  (dictFind d k).isSome

/-- Python `d.get(k, default)`. -/
def dictGetD (d : List (String × JVal)) (k : String) (dflt : JVal) : JVal :=
  match dictFind d k with
  | some v => v
  | none => dflt

/-- A configuration error: Python `TypeError` (shape error) or `ValueError`
(value error) with its message. -/
inductive ConfErr where
  | typeError (msg : String)
  | valueError (msg : String)
deriving Repr, DecidableEq

/-- Element validation shared by the pattern-list style options: each element
must be a string (`TypeError` otherwise) and non-empty (`ValueError`
otherwise), errors naming the 1-based element index `i` and the
configuration key path `loc`.  Mirrors the per-element loops of
`include_spec`, `exclude_spec`, `artifact_spec` and `dev_mode_dirs`. -/
def validateStrings (noun loc : String) (i : Nat) : List JVal → Except ConfErr (List String)
  | [] => .ok []
  | v :: rest =>
    match v with
    | .str s =>
      if s = "" then
        .error (.valueError (noun ++ " #" ++ toString i ++ " in field `" ++ loc ++
          "` cannot be an empty string"))
      else
        match validateStrings noun loc (i + 1) rest with
        | .error e => .error e
        | .ok tail => .ok (s :: tail)
    | _ => .error (.typeError (noun ++ " #" ++ toString i ++ " in field `" ++ loc ++
        "` must be a string"))

/-- Ordered-set insertion (the `OrderedDict` used-as-a-set idiom:
`d[x] = None` keeps the first position of an existing key). -/
def insertNew (l : List String) (s : String) : List String :=
  if s ∈ l then l else l ++ [s]

/-- Ordered-set extension by a whole list. -/
def insertAllNew (l : List String) (xs : List String) : List String :=
  xs.foldl insertNew l

/-- Insertion into a sorted list of strings (Python string `<`). -/
def insertSortedStr (s : String) : List String → List String
  | [] => [s]
  | t :: rest => if s ≤ t then s :: t :: rest else t :: insertSortedStr s rest

/-- Sorting a list of strings (Python `sorted`). -/
def sortStrings : List String → List String
  | [] => []
  | s :: rest => insertSortedStr s (sortStrings rest)

/-- Python dict assignment `d[k] = v`: update in place when the key exists
(keeping its position), append otherwise. -/
def upsertA {α : Type} (d : List (String × α)) (k : String) (v : α) : List (String × α) :=
  match d with
  | [] => [(k, v)]
  | (k', v') :: rest => if k' = k then (k, v) :: rest else (k', v') :: upsertA rest k v

/-- Key membership in an association list. -/
def containsA {α : Type} (d : List (String × α)) (k : String) : Bool :=
  match d with
  | [] => false
  | (k', _) :: rest => k' = k || containsA rest k

/-- Python `d.setdefault(k, v)`: insert only when the key is absent. -/
def setdefaultA {α : Type} (d : List (String × α)) (k : String) (v : α) : List (String × α) :=
  if containsA d k then d else d ++ [(k, v)]

/-- Python `d.update(new)`: assign every binding of `new` into `d` in order. -/
def dictUpdateAll {α : Type} (d new : List (String × α)) : List (String × α) :=
  new.foldl (fun m kv => upsertA m kv.1 kv.2) d

/-- First value bound to a key in a string-valued association list
(`os.environ` lookup). -/
def lookupStr (d : List (String × String)) (k : String) : Option String :=
  match d with
  | [] => none
  | (k', v) :: rest => if k' = k then some v else lookupStr rest k

/-- First value bound to a key in an association list. -/
def lookupA {α : Type} (d : List (String × α)) (k : String) : Option α :=
  match d with
  | [] => none
  | (k', v) :: rest => if k' = k then some v else lookupA rest k

/-- Python `s.startswith(pre)`: character-level test. -/
def pyStartswith (s pre : String) : Bool :=
  pre.toList.isPrefixOf s.toList

/-- Whether a path begins with the separator character. -/
def startsWithSlash (s : String) : Bool :=
  match s.toList with
  | '/' :: _ => true
  | _ => false

/-- Insertion into a list of pairs sorted by key. -/
def insertSortedPair (p : String × String) : List (String × String) → List (String × String)
  | [] => [p]
  | q :: rest => if p.1 ≤ q.1 then p :: q :: rest else q :: insertSortedPair p rest

/-- Sorting an association list by key (Python `dict(sorted(d.items()))`;
keys are unique in a Python dict, so sorting pairs sorts by key). -/
def sortPairs : List (String × String) → List (String × String)
  | [] => []
  | p :: rest => insertSortedPair p (sortPairs rest)

/-! ### Path model

Relative paths are forward-slash separated strings.  The platform path
separator `os.path.sep` is `/` (the backend's POSIX environment), so the
separator-normalisation `relative_path.replace(os.path.sep, '/')` becomes a
character map that is provably the identity here. -/

/-- The platform path separator character (`os.path.sep` on POSIX). -/
def osSepChar : Char := '/'

/-- `s.replace(os.path.sep, '/')` for the single-character POSIX separator:
a character-wise replacement. -/
def sepToSlash (s : String) : String :=
  String.mk (s.toList.map (fun c => if c = osSepChar then '/' else c))

/-- Splitting a character list at `/` separators; always returns at least one
(possibly empty) segment, like Python `"".split("/") == [""]`. -/
def splitChars : List Char → List (List Char)
  | [] => [[]]
  | c :: rest =>
    if c = '/' then [] :: splitChars rest
    else
      match splitChars rest with
      | [] => [[c]]
      | s :: ss => (c :: s) :: ss

/-- The `/`-separated segments of a path or pattern string. -/
def segsOf (s : String) : List (List Char) :=
  splitChars s.toList

/-- Joining segments back with `/` separators (inverse of `splitChars`). -/
def joinSegs : List (List Char) → List Char
  | [] => []
  | [s] => s
  | s :: rest => s ++ '/' :: joinSegs rest

/-! ### Gitignore-style matching, modelled from the spec

The repository delegates pattern matching to the external `pathspec` library
(`pathspec.PathSpec.from_lines(pathspec.patterns.GitWildMatchPattern, …)`),
which is not part of this repository's sources.  The matcher below is
modelled from the spec: a compiled spec is the ordered list of pattern
lines; later patterns override earlier ones (negation with a leading `!`),
a pattern with a leading `/` (or an interior `/`) matches only from the
root, a trailing `/` makes the pattern match directories (hence every file
below such a directory), and `*` / `?` glob within a path segment. -/

/-- Glob match of one pattern segment against one path segment: `*` matches
any run of characters, `?` any single character, everything else literally
(segments contain no `/`). -/
def segGlob : List Char → List Char → Bool
  | [], cs => cs.isEmpty
  | p :: ps, cs =>
    if p = '*' then (List.range (cs.length + 1)).any (fun k => segGlob ps (cs.drop k))
    else if p = '?' then
      match cs with
      | [] => false
      | _ :: cs' => segGlob ps cs'
    else
      match cs with
      | [] => false
      | c :: cs' => p = c && segGlob ps cs'

/-- A parsed gitignore-style pattern line. -/
structure ParsedPattern where
  negated : Bool
  anchored : Bool
  dirOnly : Bool
  segs : List (List Char)

/-- Parse one pattern line: blank lines and `#` comments are inert, a
leading `!` negates, a leading `/` anchors to the root (as does any
interior `/`), a trailing `/` restricts the pattern to directories. -/
def parsePattern (line : String) : Option ParsedPattern :=
  match line.toList with
  | [] => none
  | c :: rest =>
    if c = '#' then none
    else
      let negated := c == '!'
      let cs := if negated then rest else c :: rest
      let lead := cs.head? == some '/'
      let cs := if lead then cs.tail else cs
      let dirOnly := cs.getLast? == some '/'
      let cs := if dirOnly then cs.dropLast else cs
      let anchored := lead || cs.contains '/'
      some ⟨negated, anchored, dirOnly, splitChars cs⟩

/-- Match the pattern segments against a consecutive run of path segments
starting here; a directory-only pattern must leave at least one path
segment unconsumed (the path names a file strictly below the directory). -/
def matchSegsHere : List (List Char) → Bool → List (List Char) → Bool
  | [], dirOnly, rest => !dirOnly || !rest.isEmpty
  | _ :: _, _, [] => false
  | p :: ps, dirOnly, c :: cs => segGlob p c && matchSegsHere ps dirOnly cs

/-- Match the pattern segments starting at any path-segment boundary. -/
def matchSegsAnywhere (pat : List (List Char)) (dirOnly : Bool) : List (List Char) → Bool
  | [] => matchSegsHere pat dirOnly []
  | c :: cs => matchSegsHere pat dirOnly (c :: cs) || matchSegsAnywhere pat dirOnly cs

/-- Whether a single parsed pattern matches a relative path (negation flag
not consulted: it is interpreted by the enclosing spec). -/
def ParsedPattern.matches (pp : ParsedPattern) (path : String) : Bool :=
  let psegs := segsOf path
  if pp.anchored then matchSegsHere pp.segs pp.dirOnly psegs
  else matchSegsAnywhere pp.segs pp.dirOnly psegs

/-- A compiled spec is the ordered list of its pattern lines
(`pathspec.PathSpec.from_lines` keeps the order). -/
abbrev PathSpec := List String

/-- One pattern line's effect on the running match state: a matching
pattern overrides the state with its polarity, everything else keeps it. -/
def matchStep (path : String) (st : Bool) (line : String) : Bool :=
  match parsePattern line with
  | none => st
  | some pp => if pp.matches path then !pp.negated else st

/-- `PathSpec.match_file`, modelled from the spec: the last pattern that
matches the path decides (a non-negated match includes, a negated match
re-excludes); with no matching pattern the file does not match. -/
def matchFile (spec : PathSpec) (path : String) : Bool :=
  spec.foldl (matchStep path) false

/-! ### Path normalisation helpers, modelled from the spec

`normalize_relative_path`, `normalize_relative_directory` and
`normalize_inclusion_map` live in `hatchling/builders/utils.py`, which is
not among the sources; they are modelled from the spec's words: a source
directory is normalised "to a canonical trailing-separator form" and a
replacement "to canonical relative-path form". -/

/-- Normalise path segments: drop empty and `.` segments, cancel a `..`
against a preceding real segment (Python `os.path.normpath` behaviour on
relative paths). -/
def normSegs (segs : List (List Char)) : List (List Char) :=
  segs.foldl
    (fun acc seg =>
      if seg = [] ∨ seg = ['.'] then acc
      else if seg = ['.', '.'] then
        match acc.getLast? with
        | some l => if l = ['.', '.'] then acc ++ [seg] else acc.dropLast
        | none => acc ++ [seg]
      else acc ++ [seg])
    []

/-- Modelled from the spec: `normalize_relative_path` (from
`hatchling.builders.utils`, absent from the sources) puts a path in
canonical relative form, with redundant separators and `.` components
removed and no leading or trailing separator. -/
def normalize_relative_path (p : String) : String :=
  String.mk (joinSegs (normSegs (segsOf p)))

/-- Modelled from the spec: `normalize_relative_directory` (from
`hatchling.builders.utils`, absent from the sources) is the canonical
trailing-separator form of a source directory. -/
def normalize_relative_directory (p : String) : String :=
  normalize_relative_path p ++ "/"

/-- Python `os.path.split`: split at the last separator into
`(directory, basename)`. -/
def os_path_split (p : String) : String × String :=
  match (segsOf p).reverse with
  | [] => ("", p)
  | [_] => ("", p)
  | last :: revInit => (String.mk (joinSegs revInit.reverse), String.mk last)

/-- Modelled from the spec: `normalize_inclusion_map` (from
`hatchling.builders.utils`, absent from the sources) normalises each
force-include entry: a relative source is joined to the project root, the
destination is put in canonical relative form. -/
def normalize_inclusion_map (m : List (String × String)) (root : String) :
    List (String × String) :=
  m.map (fun sr =>
    (if startsWithSlash sr.1 then sr.1 else root ++ "/" ++ normalize_relative_path sr.1,
     normalize_relative_path sr.2))

/-- Python `os.path.isabs` (POSIX). -/
def os_path_isabs (p : String) : Bool := startsWithSlash p

/-- Python `os.path.normpath` (POSIX), modelled: collapse separators, drop
`.` components, cancel `..` against a preceding component. -/
def os_path_normpath (p : String) : String :=
  let n := String.mk (joinSegs (normSegs (segsOf p)))
  if startsWithSlash p then "/" ++ n
  else if n = "" then "." else n

/-! ### The configuration object

`BuilderConfig.__init__` captures the builder, project root, plugin name and
the two configuration tables.  The collaborators the properties consult
(the builder's version API and defaults, the runtime dependency list from the
project metadata, `os.environ`, and the raw lines of a located VCS ignore
file) are carried as explicit fields, which the spec lists as the consumed
external interfaces. -/

structure Cfg where
  plugin_name : String
  root : String
  build_config : List (String × JVal)
  target_config : List (String × JVal)
  builder_default_versions : List String
  builder_version_api_keys : List String
  core_dependencies : List String
  environ : List (String × String)
  vcs_ignore_lines : List String

/-- `BuilderConfig.default_include` (the base class returns an empty list). -/
def default_include : JVal := .list []

/-- `BuilderConfig.default_exclude`. -/
def default_exclude : JVal := .list []

/-- `BuilderConfig.default_packages`. -/
def default_packages : JVal := .list []

/-- `BuilderConfig.default_global_exclude`. -/
def default_global_exclude : List String := [".git", "__pycache__", "*.py[cod]"]

/-- Modelled from the spec: `DEFAULT_BUILD_DIRECTORY` comes from
`hatchling/builders/constants.py`, absent from the sources; only its identity
matters here. -/
def DEFAULT_BUILD_DIRECTORY : String := "dist"

namespace BuildEnvVars

/-- Modelled from the spec: the global disable-all-hooks switch name, from
`hatchling/builders/constants.py` (absent from the sources). -/
def NO_HOOKS : String := "HATCH_BUILD_NO_HOOKS"

/-- Modelled from the spec: the global force-enable-all-hooks switch name. -/
def HOOKS_ENABLE : String := "HATCH_BUILD_HOOKS_ENABLE"

/-- Modelled from the spec: the per-hook force-enable switch name prefix. -/
def HOOK_ENABLE_PREFIX : String := "HATCH_BUILD_HOOK_ENABLE_"

end BuildEnvVars

/-- `env_var_enabled(env_var, default=False)`: an environment switch is
active when the variable is set to `1` or `true`. -/
def env_var_enabled (environ : List (String × String)) (env_var : String) (dflt : Bool) : Bool :=
  match lookupStr environ env_var with
  | some s => s = "1" || s = "true"
  | none => dflt

/-- The fully-qualified location of an option key: the target-level path when
the key exists in the target table, the global path otherwise. -/
def optionLocation (g : Cfg) (key : String) : String :=
  if dictContains g.target_config key then
    "tool.hatch.build.targets." ++ g.plugin_name ++ "." ++ key
  else "tool.hatch.build." ++ key

/-- The table an option key is read from: the target table when the key
exists there, the global table otherwise. -/
def optionTable (g : Cfg) (key : String) : List (String × JVal) :=
  if dictContains g.target_config key then g.target_config else g.build_config

/-- The boolean-option resolution pattern shared by `ignore_vcs`,
`require_runtime_dependencies`, `only_packages`, `reproducible` and
`dev_mode_exact`: target value if the key is there, global value otherwise,
type-checked with an error naming the fully-qualified key. -/
def boolOption (g : Cfg) (key : String) (dflt : Bool) : Except ConfErr Bool :=
  match dictFind g.target_config key with
  | some v =>
    match v with
    | .bool b => .ok b
    | _ => .error (.typeError ("Field `tool.hatch.build.targets." ++ g.plugin_name ++ "." ++
        key ++ "` must be a boolean"))
  | none =>
    match dictGetD g.build_config key (.bool dflt) with
    | .bool b => .ok b
    | _ => .error (.typeError ("Field `tool.hatch.build." ++ key ++ "` must be a boolean"))

/-- `BuilderConfig.ignore_vcs`. -/
def compute_ignore_vcs (g : Cfg) : Except ConfErr Bool :=
  boolOption g "ignore-vcs" false

/-- `BuilderConfig.require_runtime_dependencies`. -/
def compute_require_runtime_dependencies (g : Cfg) : Except ConfErr Bool :=
  boolOption g "require-runtime-dependencies" false

/-- `BuilderConfig.only_packages`. -/
def compute_only_packages (g : Cfg) : Except ConfErr Bool :=
  boolOption g "only-packages" false

/-- `BuilderConfig.reproducible`. -/
def compute_reproducible (g : Cfg) : Except ConfErr Bool :=
  boolOption g "reproducible" true

/-- `BuilderConfig.dev_mode_exact`. -/
def compute_dev_mode_exact (g : Cfg) : Except ConfErr Bool :=
  boolOption g "dev-mode-exact" false

/-- `BuilderConfig.normalize_build_directory`. -/
def normalize_build_directory (g : Cfg) (build_directory : String) : String :=
  if os_path_isabs build_directory then os_path_normpath build_directory
  else os_path_normpath (g.root ++ "/" ++ build_directory)

/-- `BuilderConfig.directory`. -/
def compute_directory (g : Cfg) : Except ConfErr String :=
  match dictFind g.target_config "directory" with
  | some v =>
    match v with
    | .str d => .ok (normalize_build_directory g d)
    | _ => .error (.typeError ("Field `tool.hatch.build.targets." ++ g.plugin_name ++
        ".directory` must be a string"))
  | none =>
    match dictGetD g.build_config "directory" (.str DEFAULT_BUILD_DIRECTORY) with
    | .str d => .ok (normalize_build_directory g d)
    | _ => .error (.typeError "Field `tool.hatch.build.directory` must be a string")

/-- `BuilderConfig.dev_mode_dirs`. -/
def compute_dev_mode_dirs (g : Cfg) : Except ConfErr (List String) :=
  let loc := optionLocation g "dev-mode-dirs"
  match dictGetD (optionTable g "dev-mode-dirs") "dev-mode-dirs" (.list []) with
  | .list items => validateStrings "Directory" loc 1 items
  | _ => .error (.typeError ("Field `" ++ loc ++ "` must be an array of strings"))

/-- `BuilderConfig.packages`. -/
def compute_packages (g : Cfg) : Except ConfErr (List String) :=
  let loc := optionLocation g "packages"
  match dictGetD (optionTable g "packages") "packages" default_packages with
  | .list items =>
    match validateStrings "Package" loc 1 items with
    | .error e => .error e
    | .ok pkgs => .ok (sortStrings (pkgs.map normalize_relative_path))
  | _ => .error (.typeError ("Field `" ++ loc ++ "` must be an array of strings"))

/-- `BuilderConfig.include_spec`: validated configured patterns plus one
root-anchored directory pattern per declared package; absent when the
combined pattern list is empty. -/
def compute_include_spec (g : Cfg) : Except ConfErr (Option PathSpec) :=
  let loc := optionLocation g "include"
  match dictGetD (optionTable g "include") "include" default_include with
  | .list items =>
    match validateStrings "Pattern" loc 1 items with
    | .error e => .error e
    | .ok pats =>
      match compute_packages g with
      | .error e => .error e
      | .ok pkgs =>
        let all := pats ++ pkgs.map (fun relative_path => "/" ++ sepToSlash relative_path ++ "/")
        .ok (if all.isEmpty then none else some all)
  | _ => .error (.typeError ("Field `" ++ loc ++ "` must be an array of strings"))

/-- `BuilderConfig.exclude_spec`: the fixed global baseline, the validated
configured patterns, and (unless VCS-ignore inspection is disabled) the raw
lines of the located ignore file. -/
def compute_exclude_spec (g : Cfg) : Except ConfErr (Option PathSpec) :=
  let loc := optionLocation g "exclude"
  match dictGetD (optionTable g "exclude") "exclude" default_exclude with
  | .list items =>
    match validateStrings "Pattern" loc 1 items with
    | .error e => .error e
    | .ok pats =>
      match compute_ignore_vcs g with
      | .error e => .error e
      | .ok iv =>
        let all := default_global_exclude ++ pats ++ (if iv then [] else g.vcs_ignore_lines)
        .ok (if all.isEmpty then none else some all)
  | _ => .error (.typeError ("Field `" ++ loc ++ "` must be an array of strings"))

/-- `BuilderConfig.artifact_spec`. -/
def compute_artifact_spec (g : Cfg) : Except ConfErr (Option PathSpec) :=
  let loc := optionLocation g "artifacts"
  match dictGetD (optionTable g "artifacts") "artifacts" (.list []) with
  | .list items =>
    match validateStrings "Pattern" loc 1 items with
    | .error e => .error e
    | .ok pats => .ok (if pats.isEmpty then none else some pats)
  | _ => .error (.typeError ("Field `" ++ loc ++ "` must be an array of strings"))

/-- Target-level half of `BuilderConfig.hook_config`: every entry must be a
table; entries are assigned in order. -/
def addTargetHooks (pn : String) (acc : List (String × List (String × JVal))) :
    List (String × JVal) → Except ConfErr (List (String × List (String × JVal)))
  | [] => .ok acc
  | (hook_name, v) :: rest =>
    match v with
    | .dict c => addTargetHooks pn (upsertA acc hook_name c) rest
    | _ => .error (.typeError ("Field `tool.hatch.build.targets." ++ pn ++ ".hooks." ++
        hook_name ++ "` must be a table"))

/-- Global-level half of `BuilderConfig.hook_config`: every entry must be a
table; entries are added with `setdefault` (target-level entries win). -/
def addGlobalHooks (acc : List (String × List (String × JVal))) :
    List (String × JVal) → Except ConfErr (List (String × List (String × JVal)))
  | [] => .ok acc
  | (hook_name, v) :: rest =>
    match v with
    | .dict c => addGlobalHooks (setdefaultA acc hook_name c) rest
    | _ => .error (.typeError ("Field `tool.hatch.build.hooks." ++ hook_name ++
        "` must be a table"))

/-- The enablement test of `BuilderConfig.hook_config`: force-enable-all, or
the hook's own `enable-by-default` option (default true, Python truthiness),
or the per-hook force-enable switch. -/
def hookEnabled (environ : List (String × String)) (all_hooks_enabled : Bool)
    (hook_name : String) (config : List (String × JVal)) : Bool :=
  all_hooks_enabled || truthy (dictGetD config "enable-by-default" (.bool true)) ||
    env_var_enabled environ (BuildEnvVars.HOOK_ENABLE_PREFIX ++ hook_name.toUpper) false

/-- `BuilderConfig.hook_config`. -/
def compute_hook_config (g : Cfg) : Except ConfErr (List (String × List (String × JVal))) :=
  match dictGetD g.target_config "hooks" (.dict []) with
  | .dict th =>
    match addTargetHooks g.plugin_name [] th with
    | .error e => .error e
    | .ok acc =>
      match dictGetD g.build_config "hooks" (.dict []) with
      | .dict gh =>
        match addGlobalHooks acc gh with
        | .error e => .error e
        | .ok merged =>
          .ok (if env_var_enabled g.environ BuildEnvVars.NO_HOOKS false then []
            else
              let all_hooks_enabled := env_var_enabled g.environ BuildEnvVars.HOOKS_ENABLE false
              merged.filter (fun nc => hookEnabled g.environ all_hooks_enabled nc.1 nc.2))
      | _ => .error (.typeError "Field `tool.hatch.build.hooks` must be a table")
  | _ => .error (.typeError ("Field `tool.hatch.build.targets." ++ g.plugin_name ++
      ".hooks` must be a table"))

/-- `BuilderConfig.versions`. -/
def compute_versions (g : Cfg) : Except ConfErr (List String) :=
  let loc := "tool.hatch.build.targets." ++ g.plugin_name ++ ".versions"
  match dictGetD g.target_config "versions" (.list []) with
  | .list items =>
    match validateStrings "Version" loc 1 items with
    | .error e => .error e
    | .ok vs =>
      let all_versions := insertAllNew [] vs
      if all_versions.isEmpty then
        .ok (insertAllNew [] g.builder_default_versions)
      else
        let unknown_versions := all_versions.filter (fun v => !g.builder_version_api_keys.contains v)
        if unknown_versions.isEmpty then .ok all_versions
        else .error (.valueError ("Unknown versions in field `" ++ loc ++ "`: " ++
          String.intercalate ", " (sortStrings unknown_versions)))
  | _ => .error (.typeError ("Field `" ++ loc ++ "` must be an array of strings"))

/-- The dependency-element validation loop: elements must be strings (there
is no empty-string check for dependencies) and land in an ordered set. -/
def validateDeps (msg : Nat → String) (i : Nat) (acc : List String) :
    List JVal → Except ConfErr (List String)
  | [] => .ok acc
  | v :: rest =>
    match v with
    | .str s => validateDeps msg (i + 1) (insertNew acc s) rest
    | _ => .error (.typeError (msg i))

/-- Error message for a non-string target-level dependency. -/
def targetDepMsg (pn : String) (i : Nat) : String :=
  "Dependency #" ++ toString i ++ " of field `tool.hatch.build.targets." ++ pn ++
    ".dependencies` must be a string"

/-- Error message for a non-string global-level dependency. -/
def globalDepMsg (i : Nat) : String :=
  "Dependency #" ++ toString i ++ " of field `tool.hatch.build.dependencies` must be a string"

/-- Error message for a non-string hook dependency. -/
def hookDepMsg (hook_name : String) (i : Nat) : String :=
  "Dependency #" ++ toString i ++ " of option `dependencies` of build hook `" ++ hook_name ++
    "` must be a string"

/-- The target-then-global merge at the head of `BuilderConfig.dependencies`
(lines 454-480): target-level entries first, then global-level entries, into
one ordered set. -/
def depsBase (g : Cfg) : Except ConfErr (List String) :=
  match dictGetD g.target_config "dependencies" (.list []) with
  | .list titems =>
    match validateDeps (targetDepMsg g.plugin_name) 1 [] titems with
    | .error e => .error e
    | .ok d1 =>
      match dictGetD g.build_config "dependencies" (.list []) with
      | .list gitems => validateDeps globalDepMsg 1 d1 gitems
      | _ => .error (.typeError "Field `tool.hatch.build.dependencies` must be an array")
  | _ => .error (.typeError ("Field `tool.hatch.build.targets." ++ g.plugin_name ++
      ".dependencies` must be an array"))

/-- The hook loop of `BuilderConfig.dependencies`: each hook may force
runtime dependencies on and contribute its own dependency list. -/
def depsHooks (rrd : Bool) (deps : List String) :
    List (String × List (String × JVal)) → Except ConfErr (Bool × List String)
  | [] => .ok (rrd, deps)
  | (hook_name, config) :: rest =>
    match dictGetD config "require-runtime-dependencies" (.bool false) with
    | .bool hb =>
      match dictGetD config "dependencies" (.list []) with
      | .list hitems =>
        match validateDeps (hookDepMsg hook_name) 1 deps hitems with
        | .error e => .error e
        | .ok deps' => depsHooks (rrd || hb) deps' rest
      | _ => .error (.typeError ("Option `dependencies` of build hook `" ++ hook_name ++
          "` must be an array"))
    | _ => .error (.typeError ("Option `require-runtime-dependencies` of build hook `" ++
        hook_name ++ "` must be a boolean"))

/-- `BuilderConfig.dependencies`. -/
def compute_dependencies (g : Cfg) : Except ConfErr (List String) :=
  match depsBase g with
  | .error e => .error e
  | .ok base =>
    match compute_require_runtime_dependencies g with
    | .error e => .error e
    | .ok rrd0 =>
      match compute_hook_config g with
      | .error e => .error e
      | .ok hooks =>
        match depsHooks rrd0 base hooks with
        | .error e => .error e
        | .ok rd => .ok (if rd.1 then insertAllNew rd.2 g.core_dependencies else rd.2)

/-- The list form of `sources` configuration: each entry is a source
directory registered with an empty replacement. -/
def listSources (loc : String) (i : Nat) (acc : List (String × String)) :
    List JVal → Except ConfErr (List (String × String))
  | [] => .ok acc
  | v :: rest =>
    match v with
    | .str source =>
      if source = "" then
        .error (.valueError ("Source #" ++ toString i ++ " in field `" ++ loc ++
          "` cannot be an empty string"))
      else listSources loc (i + 1) (upsertA acc (normalize_relative_directory source) "") rest
    | _ => .error (.typeError ("Source #" ++ toString i ++ " in field `" ++ loc ++
        "` must be a string"))

/-- The mapping form of `sources` configuration: source directory mapped to
an explicit replacement path. -/
def dictSources (loc : String) (i : Nat) (acc : List (String × String)) :
    List (String × JVal) → Except ConfErr (List (String × String))
  | [] => .ok acc
  | (source, v) :: rest =>
    if source = "" then
      .error (.valueError ("Source #" ++ toString i ++ " in field `" ++ loc ++
        "` cannot be an empty string"))
    else
      match v with
      | .str path =>
        let normalized_path := normalize_relative_path path
        let normalized_path := if normalized_path ≠ "" then normalized_path ++ "/" else normalized_path
        dictSources loc (i + 1) (upsertA acc (normalize_relative_directory source) normalized_path) rest
      | _ => .error (.typeError ("Path for source `" ++ source ++ "` in field `" ++ loc ++
          "` must be a string"))

/-- The explicitly configured half of `BuilderConfig.sources`. -/
def sourcesExplicit (g : Cfg) : Except ConfErr (List (String × String)) :=
  let loc := optionLocation g "sources"
  match dictGetD (optionTable g "sources") "sources" (.list []) with
  | .list items => listSources loc 1 [] items
  | .dict items => dictSources loc 1 [] items
  | _ => .error (.typeError ("Field `" ++ loc ++ "` must be a mapping or array of strings"))

/-- The implicit-registration loop of `BuilderConfig.sources` (lines
556-559): for every declared package whose path has a directory component,
assign that directory an empty replacement — unless the package's own
directory-normalised path is a key of the map. -/
def sourcesAddPackages (srcs : List (String × String)) (pkgs : List String) :
    List (String × String) :=
  pkgs.foldl
    (fun m relative_path =>
      let sp := os_path_split relative_path
      if sp.1 ≠ "" && !(containsA m (normalize_relative_directory relative_path)) then
        upsertA m (normalize_relative_directory sp.1) ""
      else m)
    srcs

/-- `BuilderConfig.sources`. -/
def compute_sources (g : Cfg) : Except ConfErr (List (String × String)) :=
  match sourcesExplicit g with
  | .error e => .error e
  | .ok explicitSrcs =>
    match compute_packages g with
    | .error e => .error e
    | .ok pkgs => .ok (sortPairs (sourcesAddPackages explicitSrcs pkgs))

/-- The validation loop of `BuilderConfig.force_include`: non-empty sources,
string non-empty destinations. -/
def validateForceInclude (loc : String) (i : Nat) :
    List (String × JVal) → Except ConfErr (List (String × String))
  | [] => .ok []
  | (source, v) :: rest =>
    if source = "" then
      .error (.valueError ("Source #" ++ toString i ++ " in field `" ++ loc ++
        "` cannot be an empty string"))
    else
      match v with
      | .str relative_path =>
        if relative_path = "" then
          .error (.valueError ("Path for source `" ++ source ++ "` in field `" ++ loc ++
            "` cannot be an empty string"))
        else
          match validateForceInclude loc (i + 1) rest with
          | .error e => .error e
          | .ok tail => .ok ((source, relative_path) :: tail)
      | _ => .error (.typeError ("Path for source `" ++ source ++ "` in field `" ++ loc ++
          "` must be a string"))

/-- `BuilderConfig.force_include`. -/
def compute_force_include (g : Cfg) : Except ConfErr (List (String × String)) :=
  let loc := optionLocation g "force-include"
  match dictGetD (optionTable g "force-include") "force-include" (.dict []) with
  | .dict items =>
    match validateForceInclude loc 1 items with
    | .error e => .error e
    | .ok pairs => .ok (normalize_inclusion_map pairs g.root)
  | _ => .error (.typeError ("Field `" ++ loc ++ "` must be a mapping"))

/-! ### The inclusion decision engine and build-time overlay -/

/-- The mutable part of the configuration object: the immutable inputs plus
the two build-time overlay fields (`build_artifact_spec`,
`build_force_include`). -/
structure BState where
  cfg : Cfg
  build_artifact_spec : Option PathSpec
  build_force_include : List (String × String)

/-- `BuilderConfig.path_is_included`: an absent include spec matches every
path. -/
def path_is_included (g : Cfg) (relative_path : String) : Except ConfErr Bool :=
  match compute_include_spec g with
  | .error e => .error e
  | .ok none => .ok true
  | .ok (some sp) => .ok (matchFile sp relative_path)

/-- `BuilderConfig.path_is_excluded`: an absent exclude spec matches no
path. -/
def path_is_excluded (g : Cfg) (relative_path : String) : Except ConfErr Bool :=
  match compute_exclude_spec g with
  | .error e => .error e
  | .ok none => .ok false
  | .ok (some sp) => .ok (matchFile sp relative_path)

/-- `BuilderConfig.path_is_artifact`: an absent artifact spec matches no
path. -/
def path_is_artifact (g : Cfg) (relative_path : String) : Except ConfErr Bool :=
  match compute_artifact_spec g with
  | .error e => .error e
  | .ok none => .ok false
  | .ok (some sp) => .ok (matchFile sp relative_path)

/-- `BuilderConfig.path_is_build_artifact`: an absent build artifact spec
matches no path; never raises (the overlay field is plain state). -/
def path_is_build_artifact (s : BState) (relative_path : String) : Bool :=
  match s.build_artifact_spec with
  | none => false
  | some sp => matchFile sp relative_path

/-- `BuilderConfig.include_path`, with Python's left-to-right short-circuit
evaluation of `or`/`and` made explicit. -/
def include_path (s : BState) (relative_path : String) (is_package : Bool) :
    Except ConfErr Bool :=
  if path_is_build_artifact s relative_path then .ok true
  else
    match path_is_artifact s.cfg relative_path with
    | .error e => .error e
    | .ok true => .ok true
    | .ok false =>
      match compute_only_packages s.cfg with
      | .error e => .error e
      | .ok op =>
        if op && !is_package then .ok false
        else
          match path_is_included s.cfg relative_path with
          | .error e => .error e
          | .ok false => .ok false
          | .ok true =>
            match path_is_excluded s.cfg relative_path with
            | .error e => .error e
            | .ok ex => .ok (!ex)

/-- `BuilderConfig.get_force_include`: a copy of the static force-include
map updated with the build-time fragment. -/
def get_force_include (s : BState) : Except ConfErr (List (String × String)) :=
  match compute_force_include s.cfg with
  | .error e => .error e
  | .ok fi => .ok (dictUpdateAll fi s.build_force_include)

/-- First index at which `pat` occurs in `hay` (Python `str.find`). -/
def findSub (hay pat : List Char) : Option Nat :=
  if pat.isPrefixOf hay then some 0
  else
    match hay with
    | [] => none
    | _ :: t => (findSub t pat).map (· + 1)

/-- Python `s.replace(old, new, 1)`: replace the first occurrence only. -/
def pyReplaceOnce (s old new : String) : String :=
  match findSub s.toList old.toList with
  | none => s
  | some i => String.mk (s.toList.take i ++ new.toList ++ s.toList.drop (i + old.toList.length))

/-- The source-map scan of `BuilderConfig.get_distribution_path`. -/
def distLoop : List (String × String) → String → String
  | [], relative_path => relative_path
  | (source, replacement) :: rest, relative_path =>
    if pyStartswith relative_path source then pyReplaceOnce relative_path source replacement
    else distLoop rest relative_path

/-- `BuilderConfig.get_distribution_path`. -/
def get_distribution_path (g : Cfg) (relative_path : String) : Except ConfErr String :=
  match compute_sources g with
  | .error e => .error e
  | .ok srcs => .ok (distLoop srcs relative_path)

/-! ### The scoped build-data overlay (`set_build_data`)

The context manager's body is modelled as an arbitrary state transformer
that either completes (`none`) or fails with an error value; the outcome of
the whole `with` block distinguishes normal completion, a failure of the
entry code inside the `try` (a missing build-data key, or ill-typed
artifact/force-include data handed to the collaborators), and a failure of
the body.  The `finally` block runs on every one of these paths. -/

/-- Outcome of a `with config.set_build_data(build_data): body` block. -/
inductive SbdOutcome (ε : Type) where
  | ok
  | entryKeyError (k : String)
  | entryTypeError (msg : String)
  | bodyError (e : ε)

/-- The pattern lines handed to `pathspec.PathSpec.from_lines`, which
requires an iterable of strings. -/
def jvalStrList : List JVal → Option (List String)
  | [] => some []
  | .str s :: rest => (jvalStrList rest).map (fun t => s :: t)
  | _ :: _ => none

/-- The mapping handed to `normalize_inclusion_map`, which requires string
destinations. -/
def jvalStrPairs : List (String × JVal) → Option (List (String × String))
  | [] => some []
  | (k, .str v) :: rest => (jvalStrPairs rest).map (fun t => (k, v) :: t)
  | (_, _) :: _ => none

/-- The `finally` block of `set_build_data`: the build artifact spec is
reset to absent and the build force-include fragment is cleared. -/
def overlayCleanup (s : BState) : BState :=
  { s with build_artifact_spec := none, build_force_include := [] }

/-- Map the body's outcome to the block's outcome; in either case the
`finally` block restores the overlay fields of the body's final state. -/
def sbdFinish {ε : Type} (r : Option ε × BState) : SbdOutcome ε × BState :=
  match r with
  | (none, s3) => (.ok, overlayCleanup s3)
  | (some e, s3) => (.bodyError e, overlayCleanup s3)

/-- `BuilderConfig.set_build_data` run as a whole scoped block: install the
hook-contributed artifact spec (when the pattern list is truthy) and merge
the hook-contributed force-include mapping, run the body, and restore on
every exit path. -/
def set_build_data {ε : Type} (s : BState) (build_data : List (String × JVal))
    (body : BState → Option ε × BState) : SbdOutcome ε × BState :=
  match dictFind build_data "artifacts" with
  | none => (.entryKeyError "artifacts", overlayCleanup s)
  | some av =>
    let installed : Except String BState :=
      if truthy av then
        match av with
        | .list items =>
          match jvalStrList items with
          | some lines => .ok { s with build_artifact_spec := some lines }
          | none => .error "pathspec pattern lines must be strings"
        | _ => .error "pathspec pattern source must be a list of strings"
      else .ok s
    match installed with
    | .error m => (.entryTypeError m, overlayCleanup s)
    | .ok s1 =>
      match dictFind build_data "force-include" with
      | none => (.entryKeyError "force-include", overlayCleanup s1)
      | some fv =>
        match fv with
        | .dict fitems =>
          match jvalStrPairs fitems with
          | some fpairs =>
            let merged := dictUpdateAll s1.build_force_include
              (normalize_inclusion_map fpairs s1.cfg.root)
            let s2 := { s1 with build_force_include := merged }
            sbdFinish (body s2)
          | none => (.entryTypeError "force-include destinations must be strings", overlayCleanup s1)
        | _ => (.entryTypeError "force-include data must be a mapping", overlayCleanup s1)

/-! ### The memoization layer

Each property of `BuilderConfig` stores its computed value in a private
backing field on first access (`if self.__x is None: … ; self.__x = …`) and
returns the stored value afterwards.  The backing fields are collected in a
`Cache`; an access returns the property's result together with the cache
as it stands after the access — an exception propagates out of the property
leaving whatever was already assigned in place. -/

/-- The private backing fields of `BuilderConfig` (all `None` at
construction). -/
structure Cache where
  c_hook_config : Option (List (String × List (String × JVal)))
  c_versions : Option (List String)
  c_dependencies : Option (List String)
  c_sources : Option (List (String × String))
  c_packages : Option (List String)
  c_force_include : Option (List (String × String))
  c_include_spec : Option PathSpec
  c_exclude_spec : Option PathSpec
  c_artifact_spec : Option PathSpec
  c_include_patterns : Option (List String)
  c_exclude_patterns : Option (List String)
  c_artifact_patterns : Option (List String)
  c_directory : Option String
  c_ignore_vcs : Option Bool
  c_only_packages : Option Bool
  c_reproducible : Option Bool
  c_dev_mode_dirs : Option (List String)
  c_dev_mode_exact : Option Bool
  c_require_runtime_dependencies : Option Bool

/-- The state of the backing fields right after `__init__`. -/
def Cache.init : Cache :=
  ⟨none, none, none, none, none, none, none, none, none, none,
   none, none, none, none, none, none, none, none, none⟩

/-- The common memoized-property access shape: return the stored value if
the backing field is set, otherwise run the computation and store the value
only on success. -/
def memoAcc {α : Type} (get : Cache → Option α) (set : Cache → α → Cache)
    (compute : Cfg → Except ConfErr α) (g : Cfg) (c : Cache) : Except ConfErr α × Cache :=
  match get c with
  | some v => (.ok v, c)
  | none =>
    match compute g with
    | .error e => (.error e, c)
    | .ok v => (.ok v, set c v)

/-- Cached access to `versions`. -/
def acc_versions (g : Cfg) (c : Cache) : Except ConfErr (List String) × Cache :=
  memoAcc (fun c => c.c_versions) (fun c v => { c with c_versions := some v }) compute_versions g c

/-- Cached access to `packages`. -/
def acc_packages (g : Cfg) (c : Cache) : Except ConfErr (List String) × Cache :=
  memoAcc (fun c => c.c_packages) (fun c v => { c with c_packages := some v }) compute_packages g c

/-- Cached access to `force_include`. -/
def acc_force_include (g : Cfg) (c : Cache) : Except ConfErr (List (String × String)) × Cache :=
  memoAcc (fun c => c.c_force_include) (fun c v => { c with c_force_include := some v })
    compute_force_include g c

/-- Cached access to `hook_config`. -/
def acc_hook_config (g : Cfg) (c : Cache) :
    Except ConfErr (List (String × List (String × JVal))) × Cache :=
  memoAcc (fun c => c.c_hook_config) (fun c v => { c with c_hook_config := some v })
    compute_hook_config g c

/-- Cached access to `directory`. -/
def acc_directory (g : Cfg) (c : Cache) : Except ConfErr String × Cache :=
  memoAcc (fun c => c.c_directory) (fun c v => { c with c_directory := some v }) compute_directory g c

/-- Cached access to `ignore_vcs`. -/
def acc_ignore_vcs (g : Cfg) (c : Cache) : Except ConfErr Bool × Cache :=
  memoAcc (fun c => c.c_ignore_vcs) (fun c v => { c with c_ignore_vcs := some v })
    compute_ignore_vcs g c

/-- Cached access to `only_packages`. -/
def acc_only_packages (g : Cfg) (c : Cache) : Except ConfErr Bool × Cache :=
  memoAcc (fun c => c.c_only_packages) (fun c v => { c with c_only_packages := some v })
    compute_only_packages g c

/-- Cached access to `reproducible`. -/
def acc_reproducible (g : Cfg) (c : Cache) : Except ConfErr Bool × Cache :=
  memoAcc (fun c => c.c_reproducible) (fun c v => { c with c_reproducible := some v })
    compute_reproducible g c

/-- Cached access to `dev_mode_dirs`. -/
def acc_dev_mode_dirs (g : Cfg) (c : Cache) : Except ConfErr (List String) × Cache :=
  memoAcc (fun c => c.c_dev_mode_dirs) (fun c v => { c with c_dev_mode_dirs := some v })
    compute_dev_mode_dirs g c

/-- Cached access to `dev_mode_exact`. -/
def acc_dev_mode_exact (g : Cfg) (c : Cache) : Except ConfErr Bool × Cache :=
  memoAcc (fun c => c.c_dev_mode_exact) (fun c v => { c with c_dev_mode_exact := some v })
    compute_dev_mode_exact g c

/-- Cached access to `require_runtime_dependencies`. -/
def acc_require_runtime_dependencies (g : Cfg) (c : Cache) : Except ConfErr Bool × Cache :=
  memoAcc (fun c => c.c_require_runtime_dependencies)
    (fun c v => { c with c_require_runtime_dependencies := some v })
    compute_require_runtime_dependencies g c

/-- Cached access to `include_spec`: the `__include_patterns` field guards
the computation, `__include_spec` is assigned only when the combined pattern
list is non-empty, and the interior access of `packages` threads the cache
(an error there propagates before either backing field is assigned). -/
def acc_include_spec (g : Cfg) (c : Cache) : Except ConfErr (Option PathSpec) × Cache :=
  match c.c_include_patterns with
  | some _ => (.ok c.c_include_spec, c)
  | none =>
    let loc := optionLocation g "include"
    match dictGetD (optionTable g "include") "include" default_include with
    | .list items =>
      match validateStrings "Pattern" loc 1 items with
      | .error e => (.error e, c)
      | .ok pats =>
        match acc_packages g c with
        | (.error e, c') => (.error e, c')
        | (.ok pkgs, c') =>
          let all := pats ++ pkgs.map (fun relative_path => "/" ++ sepToSlash relative_path ++ "/")
          let spec := if all.isEmpty then c'.c_include_spec else some all
          (.ok spec, { c' with c_include_spec := spec, c_include_patterns := some all })
    | _ => (.error (.typeError ("Field `" ++ loc ++ "` must be an array of strings")), c)

/-- Cached access to `exclude_spec` (interior access of `ignore_vcs`). -/
def acc_exclude_spec (g : Cfg) (c : Cache) : Except ConfErr (Option PathSpec) × Cache :=
  match c.c_exclude_patterns with
  | some _ => (.ok c.c_exclude_spec, c)
  | none =>
    let loc := optionLocation g "exclude"
    match dictGetD (optionTable g "exclude") "exclude" default_exclude with
    | .list items =>
      match validateStrings "Pattern" loc 1 items with
      | .error e => (.error e, c)
      | .ok pats =>
        match acc_ignore_vcs g c with
        | (.error e, c') => (.error e, c')
        | (.ok iv, c') =>
          let all := default_global_exclude ++ pats ++ (if iv then [] else g.vcs_ignore_lines)
          let spec := if all.isEmpty then c'.c_exclude_spec else some all
          (.ok spec, { c' with c_exclude_spec := spec, c_exclude_patterns := some all })
    | _ => (.error (.typeError ("Field `" ++ loc ++ "` must be an array of strings")), c)

/-- Cached access to `artifact_spec`. -/
def acc_artifact_spec (g : Cfg) (c : Cache) : Except ConfErr (Option PathSpec) × Cache :=
  match c.c_artifact_patterns with
  | some _ => (.ok c.c_artifact_spec, c)
  | none =>
    let loc := optionLocation g "artifacts"
    match dictGetD (optionTable g "artifacts") "artifacts" (.list []) with
    | .list items =>
      match validateStrings "Pattern" loc 1 items with
      | .error e => (.error e, c)
      | .ok pats =>
        let spec := if pats.isEmpty then c.c_artifact_spec else some pats
        (.ok spec, { c with c_artifact_spec := spec, c_artifact_patterns := some pats })
    | _ => (.error (.typeError ("Field `" ++ loc ++ "` must be an array of strings")), c)

/-- Cached access to `sources` (interior access of `packages`). -/
def acc_sources (g : Cfg) (c : Cache) : Except ConfErr (List (String × String)) × Cache :=
  match c.c_sources with
  | some v => (.ok v, c)
  | none =>
    match sourcesExplicit g with
    | .error e => (.error e, c)
    | .ok explicitSrcs =>
      match acc_packages g c with
      | (.error e, c') => (.error e, c')
      | (.ok pkgs, c') =>
        let v := sortPairs (sourcesAddPackages explicitSrcs pkgs)
        (.ok v, { c' with c_sources := some v })

/-- Cached access to `dependencies` (interior accesses of
`require_runtime_dependencies` and `hook_config`, whose values are cached
even when the remainder of the computation then raises). -/
def acc_dependencies (g : Cfg) (c : Cache) : Except ConfErr (List String) × Cache :=
  match c.c_dependencies with
  | some v => (.ok v, c)
  | none =>
    match depsBase g with
    | .error e => (.error e, c)
    | .ok base =>
      match acc_require_runtime_dependencies g c with
      | (.error e, c1) => (.error e, c1)
      | (.ok rrd0, c1) =>
        match acc_hook_config g c1 with
        | (.error e, c2) => (.error e, c2)
        | (.ok hooks, c2) =>
          match depsHooks rrd0 base hooks with
          | .error e => (.error e, c2)
          | .ok rd =>
            let v := if rd.1 then insertAllNew rd.2 g.core_dependencies else rd.2
            (.ok v, { c2 with c_dependencies := some v })

/-! ## Theorems -/

/-- What matching against a possibly-absent spec yields when absence means
"match nothing" (the exclude/artifact policy). -/
def specMatches (o : Option PathSpec) (p : String) : Bool :=
  match o with
  | none => false
  | some sp => matchFile sp p

/-- What matching against a possibly-absent spec yields when absence means
"match everything" (the include policy). -/
def specMatchesD (o : Option PathSpec) (p : String) : Bool :=
  match o with
  | none => true
  | some sp => matchFile sp p

theorem path_is_build_artifact_eq (g : Cfg) (ov : Option PathSpec)
    (bfi : List (String × String)) (p : String) :
    path_is_build_artifact ⟨g, ov, bfi⟩ p = specMatches ov p := by
  cases ov <;> rfl

theorem path_is_artifact_eq (g : Cfg) (p : String) (a : Option PathSpec)
    (ha : compute_artifact_spec g = .ok a) :
    path_is_artifact g p = .ok (specMatches a p) := by
  unfold path_is_artifact
  rw [ha]
  cases a <;> rfl

theorem path_is_included_eq (g : Cfg) (p : String) (inc : Option PathSpec)
    (hinc : compute_include_spec g = .ok inc) :
    path_is_included g p = .ok (specMatchesD inc p) := by
  unfold path_is_included
  rw [hinc]
  cases inc <;> rfl

theorem path_is_excluded_eq (g : Cfg) (p : String) (exc : Option PathSpec)
    (hexc : compute_exclude_spec g = .ok exc) :
    path_is_excluded g p = .ok (specMatches exc p) := by
  unfold path_is_excluded
  rw [hexc]
  cases exc <;> rfl

/-- C1: for every relative path and package flag, `include_path` is the
short-circuit disjunction: dynamic build-artifact match, else static
artifact match, else (the `only_packages`/non-package gate passes and the
path matches the include spec and not the exclude spec); an absent include
spec matches everything, an absent exclude or artifact spec matches
nothing — in particular a path matching both the exclude spec and either
artifact spec is included. -/
theorem c1_include_path_precedence (g : Cfg) (ov : Option PathSpec)
    (bfi : List (String × String)) (p : String) (is_package : Bool)
    (a inc exc : Option PathSpec) (op : Bool)
    (ha : compute_artifact_spec g = .ok a)
    (hop : compute_only_packages g = .ok op)
    (hinc : compute_include_spec g = .ok inc)
    (hexc : compute_exclude_spec g = .ok exc) :
    include_path ⟨g, ov, bfi⟩ p is_package =
      .ok (specMatches ov p ||
        (specMatches a p ||
          (!(op && !is_package) && (specMatchesD inc p && !specMatches exc p)))) := by
  unfold include_path
  rw [path_is_build_artifact_eq, path_is_artifact_eq g p a ha,
    path_is_included_eq g p inc hinc, path_is_excluded_eq g p exc hexc, hop]
  by_cases hb : specMatches ov p
  · simp [hb]
  · simp only [hb, if_false, Bool.false_or]
    cases hA : specMatches a p
    · simp only [Bool.false_or]
      by_cases hg : op && !is_package
      · simp [hg]
      · simp only [Bool.not_eq_true] at hg
        simp only [hg, if_false]
        cases hI : specMatchesD inc p
        · simp
        · simp
    · simp

/-- An empty build configuration against a builder that knows one version. -/
def cfgEmpty : Cfg :=
  ⟨"wheel", "/proj", [], [], ["standard"], ["standard"], [], [], []⟩

/-- The state the body of `set_build_data` observes after a successful
entry: artifact spec installed, force-include fragment merged. -/
def overlayEnter (s : BState) (lines : List String) (fpairs : List (String × String)) : BState :=
  ⟨s.cfg, some lines,
    dictUpdateAll s.build_force_include (normalize_inclusion_map fpairs s.cfg.root)⟩

theorem sbdFinish_snd {ε : Type} (r : Option ε × BState) :
    (sbdFinish r).2 = overlayCleanup r.2 := by
  rcases r with ⟨o, s3⟩
  cases o <;> rfl

theorem sbd_cfg {ε : Type} (s : BState) (bd : List (String × JVal))
    (body : BState → Option ε × BState) (hbody : ∀ st, ((body st).2).cfg = st.cfg) :
    (set_build_data s bd body).2.cfg = s.cfg := by
  unfold set_build_data
  repeat' split
  all_goals simp_all [overlayCleanup, sbdFinish_snd]

theorem sbd_bas {ε : Type} (s : BState) (bd : List (String × JVal))
    (body : BState → Option ε × BState) :
    (set_build_data s bd body).2.build_artifact_spec = none := by
  unfold set_build_data
  repeat' split
  all_goals simp_all [overlayCleanup, sbdFinish_snd]

theorem sbd_bfi {ε : Type} (s : BState) (bd : List (String × JVal))
    (body : BState → Option ε × BState) :
    (set_build_data s bd body).2.build_force_include = [] := by
  unfold set_build_data
  repeat' split
  all_goals simp_all [overlayCleanup, sbdFinish_snd]

theorem include_path_bfi_irrelevant (g : Cfg) (ov : Option PathSpec)
    (b b' : List (String × String)) (p : String) (i : Bool) :
    include_path ⟨g, ov, b⟩ p i = include_path ⟨g, ov, b'⟩ p i := rfl

theorem get_force_include_bas_irrelevant (g : Cfg) (ov ov' : Option PathSpec)
    (b : List (String × String)) :
    get_force_include ⟨g, ov, b⟩ = get_force_include ⟨g, ov', b⟩ := rfl

theorem bstate_eq (t : BState) (g : Cfg) (ov : Option PathSpec) (b : List (String × String))
    (h1 : t.cfg = g) (h2 : t.build_artifact_spec = ov) (h3 : t.build_force_include = b) :
    t = ⟨g, ov, b⟩ := by
  cases t
  cases h1
  cases h2
  cases h3
  rfl

/-- C2: the scoped build-data overlay.  (1) On every exit path of
`set_build_data` — the entry raising, the body raising, or normal
completion — the build artifact spec is reset to absent and the build
force-include fragment is cleared.  (2) Hence, for a configuration-preserving
body entered with a clean overlay, every `include_path` answer and
`get_force_include` return to their pre-overlay values.  (3) Within the
scope the body observes the overlay: it runs on the state holding the
hook-contributed artifact spec and the merged force-include fragment, a path
matching the contributed artifact patterns is included unconditionally, and
`get_force_include` is the static map updated with the contributed
entries. -/
theorem c2_overlay_lifecycle :
    (∀ (ε : Type) (s : BState) (bd : List (String × JVal))
        (body : BState → Option ε × BState),
      (set_build_data s bd body).2.build_artifact_spec = none ∧
      (set_build_data s bd body).2.build_force_include = []) ∧
    (∀ (ε : Type) (s : BState) (bd : List (String × JVal))
        (body : BState → Option ε × BState),
      (∀ st, ((body st).2).cfg = st.cfg) →
      s.build_artifact_spec = none →
      s.build_force_include = [] →
      (∀ (p : String) (i : Bool),
        include_path (set_build_data s bd body).2 p i = include_path s p i) ∧
      get_force_include (set_build_data s bd body).2 = get_force_include s) ∧
    (∀ (ε : Type) (s : BState) (bd : List (String × JVal))
        (body : BState → Option ε × BState)
        (arts : List JVal) (lines : List String)
        (fits : List (String × JVal)) (fpairs : List (String × String)),
      dictFind bd "artifacts" = some (.list arts) →
      truthy (.list arts) = true →
      jvalStrList arts = some lines →
      dictFind bd "force-include" = some (.dict fits) →
      jvalStrPairs fits = some fpairs →
      set_build_data s bd body = sbdFinish (body (overlayEnter s lines fpairs)) ∧
      (∀ (p : String) (i : Bool), matchFile lines p = true →
        include_path (overlayEnter s lines fpairs) p i = .ok true) ∧
      get_force_include (overlayEnter s lines fpairs) =
        (compute_force_include s.cfg).map
          (fun fi => dictUpdateAll fi
            (dictUpdateAll s.build_force_include
              (normalize_inclusion_map fpairs s.cfg.root)))) := by
  refine ⟨?_, ?_, ?_⟩
  · intro ε s bd body
    exact ⟨sbd_bas s bd body, sbd_bfi s bd body⟩
  · intro ε s bd body hbody hbas hbfi
    have hpost : (set_build_data s bd body).2 = ⟨s.cfg, none, []⟩ :=
      bstate_eq _ _ _ _ (sbd_cfg s bd body hbody) (sbd_bas s bd body) (sbd_bfi s bd body)
    have hs : s = ⟨s.cfg, none, []⟩ := bstate_eq s s.cfg none [] rfl hbas hbfi
    constructor
    · intro p i
      rw [hpost]
      conv_rhs => rw [hs]
    · rw [hpost]
      conv_rhs => rw [hs]
  · intro ε s bd body arts lines fits fpairs hart hta hlines hfi hfp
    refine ⟨?_, ?_, ?_⟩
    · unfold set_build_data
      rw [hart]
      simp only [hta, if_true, hlines, hfi, hfp, overlayEnter]
    · intro p i h
      simp [include_path, path_is_build_artifact, overlayEnter, h]
    · cases hcf : compute_force_include s.cfg <;>
        simp [get_force_include, overlayEnter, Except.map, hcf]

/-! C3: the fallback claim.  The boolean options, `directory` and
`dev-mode-dirs` do resolve target-first with global fallback; `versions`
reads only the target-level table, and `dependencies` merges the two levels
instead of falling back, so the claim as stated fails on `versions`. -/

/-- The claim's resolution model for `versions`, following the spec's words:
target-level value when the key exists there, global-level otherwise, with
the same validation and cross-validation. -/
def versions_resolved_by_fallback (g : Cfg) : Except ConfErr (List String) :=
  let loc := "tool.hatch.build.targets." ++ g.plugin_name ++ ".versions"
  match dictGetD (optionTable g "versions") "versions" (.list []) with
  | .list items =>
    match validateStrings "Version" loc 1 items with
    | .error e => .error e
    | .ok vs =>
      let all_versions := insertAllNew [] vs
      if all_versions.isEmpty then
        .ok (insertAllNew [] g.builder_default_versions)
      else
        let unknown_versions := all_versions.filter (fun v => !g.builder_version_api_keys.contains v)
        if unknown_versions.isEmpty then .ok all_versions
        else .error (.valueError ("Unknown versions in field `" ++ loc ++ "`: " ++
          String.intercalate ", " (sortStrings unknown_versions)))
  | _ => .error (.typeError ("Field `" ++ loc ++ "` must be an array of strings"))

/-- A configuration whose global level selects a valid version while the
target level is silent about versions. -/
def cfgC3 : Cfg :=
  ⟨"wheel", "/proj", [("versions", .list [.str "other"])], [],
   ["standard"], ["standard", "other"], [], [], []⟩

/-- C3 counterexample: with `versions = ["other"]` configured only at the
global level, the code returns the builder defaults (the global value is
never consulted), while the claim's target-then-global fallback resolution
would return `["other"]`. -/
theorem c3_option_fallback_counterexample :
    compute_versions cfgC3 = .ok ["standard"] ∧
    versions_resolved_by_fallback cfgC3 = .ok ["other"] ∧
    compute_versions cfgC3 ≠ versions_resolved_by_fallback cfgC3 := by
  have h1 : compute_versions cfgC3 = .ok ["standard"] := by rfl
  have h2 : versions_resolved_by_fallback cfgC3 = .ok ["other"] := by rfl
  refine ⟨h1, h2, ?_⟩
  rw [h1, h2]
  intro h
  injection h with h'
  injection h' with ha hb
  exact absurd ha (by decide)

/-- The amended claim's resolution model for a boolean option: target-level
value when the key exists there (validated), otherwise global-level value
(validated), otherwise the documented default. -/
def resolveBoolModel (g : Cfg) (key : String) (dflt : Bool) : Except ConfErr Bool :=
  if dictContains g.target_config key then
    match dictFind g.target_config key with
    | some (.bool b) => .ok b
    | _ => .error (.typeError ("Field `tool.hatch.build.targets." ++ g.plugin_name ++ "." ++
        key ++ "` must be a boolean"))
  else
    match dictFind g.build_config key with
    | some (.bool b) => .ok b
    | some _ => .error (.typeError ("Field `tool.hatch.build." ++ key ++ "` must be a boolean"))
    | none => .ok dflt

/-- The amended claim's resolution model for `directory`. -/
def resolveDirectoryModel (g : Cfg) : Except ConfErr String :=
  if dictContains g.target_config "directory" then
    match dictFind g.target_config "directory" with
    | some (.str d) => .ok (normalize_build_directory g d)
    | _ => .error (.typeError ("Field `tool.hatch.build.targets." ++ g.plugin_name ++
        ".directory` must be a string"))
  else
    match dictFind g.build_config "directory" with
    | some (.str d) => .ok (normalize_build_directory g d)
    | some _ => .error (.typeError "Field `tool.hatch.build.directory` must be a string")
    | none => .ok (normalize_build_directory g DEFAULT_BUILD_DIRECTORY)

/-- The amended claim's resolution model for a string-list option with an
empty default. -/
def resolveListModel (g : Cfg) (key noun : String) : Except ConfErr (List String) :=
  if dictContains g.target_config key then
    let loc := "tool.hatch.build.targets." ++ g.plugin_name ++ "." ++ key
    match dictFind g.target_config key with
    | some (.list items) => validateStrings noun loc 1 items
    | _ => .error (.typeError ("Field `" ++ loc ++ "` must be an array of strings"))
  else
    let loc := "tool.hatch.build." ++ key
    match dictFind g.build_config key with
    | some (.list items) => validateStrings noun loc 1 items
    | some _ => .error (.typeError ("Field `" ++ loc ++ "` must be an array of strings"))
    | none => .ok []

theorem boolOption_fallback (g : Cfg) (key : String) (dflt : Bool) :
    boolOption g key dflt = resolveBoolModel g key dflt := by
  unfold boolOption resolveBoolModel dictContains dictGetD
  cases hf : dictFind g.target_config key
  · simp only [Option.isSome_none, Bool.false_eq_true, if_false]
    cases hg : dictFind g.build_config key
    · rfl
    · rename_i v
      cases v <;> rfl
  · rename_i v
    simp only [Option.isSome_some, if_true]
    cases v <;> rfl

theorem validateDeps_strings (msg : Nat → String) (i : Nat) (acc : List String)
    (l : List String) :
    validateDeps msg i acc (l.map JVal.str) = .ok (insertAllNew acc l) := by
  induction l generalizing i acc with
  | nil => rfl
  | cons s rest ih => simp [validateDeps, insertAllNew, List.foldl, ih]

/-- C3 amended: the boolean flags, `directory` and `dev-mode-dirs` resolve
target-first with global fallback and documented defaults; `versions` is
resolved from the target-level table alone (the global level is never
consulted); `dependencies` does not fall back but merges target-level
entries first and global-level entries second into one ordered set. -/
theorem c3_option_resolution_amended :
    (∀ g : Cfg, compute_ignore_vcs g = resolveBoolModel g "ignore-vcs" false) ∧
    (∀ g : Cfg, compute_require_runtime_dependencies g =
      resolveBoolModel g "require-runtime-dependencies" false) ∧
    (∀ g : Cfg, compute_only_packages g = resolveBoolModel g "only-packages" false) ∧
    (∀ g : Cfg, compute_reproducible g = resolveBoolModel g "reproducible" true) ∧
    (∀ g : Cfg, compute_dev_mode_exact g = resolveBoolModel g "dev-mode-exact" false) ∧
    (∀ g : Cfg, compute_directory g = resolveDirectoryModel g) ∧
    (∀ g : Cfg, compute_dev_mode_dirs g = resolveListModel g "dev-mode-dirs" "Directory") ∧
    (∀ g : Cfg, compute_versions g = compute_versions { g with build_config := [] }) ∧
    (∀ (g : Cfg) (tl gl : List String),
      dictGetD g.target_config "dependencies" (.list []) = .list (tl.map JVal.str) →
      dictGetD g.build_config "dependencies" (.list []) = .list (gl.map JVal.str) →
      depsBase g = .ok (insertAllNew (insertAllNew [] tl) gl)) := by
  refine ⟨fun g => boolOption_fallback g _ _, fun g => boolOption_fallback g _ _,
    fun g => boolOption_fallback g _ _, fun g => boolOption_fallback g _ _,
    fun g => boolOption_fallback g _ _, ?_, ?_, fun g => rfl, ?_⟩
  · intro g
    unfold compute_directory resolveDirectoryModel dictContains dictGetD
    cases hf : dictFind g.target_config "directory"
    · simp only [Option.isSome_none, Bool.false_eq_true, if_false]
      cases hg : dictFind g.build_config "directory"
      · rfl
      · rename_i v
        cases v <;> rfl
    · rename_i v
      simp only [Option.isSome_some, if_true]
      cases v <;> rfl
  · intro g
    unfold compute_dev_mode_dirs resolveListModel optionTable optionLocation dictContains dictGetD
    cases hf : dictFind g.target_config "dev-mode-dirs"
    · simp only [Option.isSome_none, Bool.false_eq_true, if_false]
      cases hg : dictFind g.build_config "dev-mode-dirs"
      · rfl
      · rename_i v
        cases v <;> rfl
    · rename_i v
      simp only [Option.isSome_some, if_true, hf]
      cases v <;> rfl
  · intro g tl gl htl hgl
    unfold depsBase
    rw [htl, hgl]
    simp only [validateDeps_strings]

theorem c3_option_resolution_amended_witness :
    depsBase cfgEmpty = .ok (insertAllNew (insertAllNew [] []) []) :=
  c3_option_resolution_amended.2.2.2.2.2.2.2.2 cfgEmpty [] [] rfl rfl

/-! C4: the implicit package-source registration. -/

theorem containsA_upsertA_self {α : Type} (m : List (String × α)) (k : String) (v : α) :
    containsA (upsertA m k v) k = true := by
  induction m with
  | nil => simp [upsertA, containsA]
  | cons kv rest ih =>
    by_cases h : kv.1 = k <;> simp [upsertA, containsA, h, ih]

theorem containsA_upsertA_mono {α : Type} (m : List (String × α)) (k k' : String) (v : α)
    (h : containsA m k' = true) : containsA (upsertA m k v) k' = true := by
  induction m with
  | nil => simp [containsA] at h
  | cons kv rest ih =>
    simp only [containsA, Bool.or_eq_true] at h
    by_cases hk : kv.1 = k
    · simp only [upsertA, hk, if_true, containsA, Bool.or_eq_true]
      rcases h with h | h
      · left
        rw [← hk, h]
      · right
        exact h
    · simp only [upsertA, hk, if_false, containsA, Bool.or_eq_true]
      rcases h with h | h
      · left
        exact h
      · right
        exact ih h

theorem lookupA_upsertA_self {α : Type} (m : List (String × α)) (k : String) (v : α) :
    lookupA (upsertA m k v) k = some v := by
  induction m with
  | nil => simp [upsertA, lookupA]
  | cons kv rest ih =>
    by_cases h : kv.1 = k <;> simp [upsertA, lookupA, h, ih]

theorem lookupA_upsertA_empty_stable (m : List (String × String)) (k k' : String)
    (h : lookupA m k' = some "") : lookupA (upsertA m k "") k' = some "" := by
  induction m with
  | nil => simp [lookupA] at h
  | cons kv rest ih =>
    by_cases he : kv.1 = k' <;> by_cases hk : kv.1 = k <;>
      simp_all [upsertA, lookupA]

/-- The per-package registration step of the `sources` loop. -/
def pkgSourceStep (m : List (String × String)) (relative_path : String) :
    List (String × String) :=
  let sp := os_path_split relative_path
  if sp.1 ≠ "" && !(containsA m (normalize_relative_directory relative_path)) then
    upsertA m (normalize_relative_directory sp.1) ""
  else m

theorem sourcesAddPackages_eq_foldl (m : List (String × String)) (pkgs : List String) :
    sourcesAddPackages m pkgs = pkgs.foldl pkgSourceStep m := rfl

theorem containsA_pkgSourceStep_mono (m : List (String × String)) (p k : String)
    (h : containsA m k = true) : containsA (pkgSourceStep m p) k = true := by
  unfold pkgSourceStep
  dsimp only
  split
  · exact containsA_upsertA_mono _ _ _ _ h
  · exact h

theorem lookupA_pkgSourceStep_empty_stable (m : List (String × String)) (p k : String)
    (h : lookupA m k = some "") : lookupA (pkgSourceStep m p) k = some "" := by
  unfold pkgSourceStep
  dsimp only
  split
  · exact lookupA_upsertA_empty_stable _ _ _ h
  · exact h

theorem containsA_sourcesAddPackages_mono (pkgs : List String) (m : List (String × String))
    (k : String) (h : containsA m k = true) :
    containsA (sourcesAddPackages m pkgs) k = true := by
  induction pkgs generalizing m with
  | nil => exact h
  | cons p rest ih => exact ih _ (containsA_pkgSourceStep_mono m p k h)

theorem lookupA_sourcesAddPackages_empty_stable (pkgs : List String)
    (m : List (String × String)) (k : String) (h : lookupA m k = some "") :
    lookupA (sourcesAddPackages m pkgs) k = some "" := by
  induction pkgs generalizing m with
  | nil => exact h
  | cons p rest ih => exact ih _ (lookupA_pkgSourceStep_empty_stable m p k h)

/-- A configuration mapping source directory `src` to the explicit
replacement `lib`, with one declared package `src/pkg`. -/
def cfgC4 : Cfg :=
  ⟨"wheel", "/proj", [],
   [("sources", .dict [("src", .str "lib")]), ("packages", .list [.str "src/pkg"])],
   [], [], [], [], []⟩

/-- C4 counterexample: the explicit entry maps `src/` to `lib/`, but because
the implicit-registration guard checks the package's own path (`src/pkg/`)
rather than the directory being registered, the loop overwrites the explicit
replacement: the final source map sends `src/` to the empty replacement. -/
theorem c4_implicit_source_counterexample :
    sourcesExplicit cfgC4 = .ok [("src/", "lib/")] ∧
    compute_sources cfgC4 = .ok [("src/", "")] :=
  ⟨rfl, rfl⟩

/-- C4 amended: the final map is the by-key sort of the explicit map after
the registration loop; the loop registers, for every declared package whose
path has a directory component, that directory with the empty replacement —
unless the package's own directory-normalised path is already a key (the
directory's own presence is not checked, so an explicit replacement for it
can be overwritten): afterwards either the package's directory-normalised
path is a key, or the parent directory maps to the empty replacement. -/
theorem c4_implicit_sources_amended :
    (∀ (g : Cfg) (explicitSrcs : List (String × String)) (pkgs : List String),
      sourcesExplicit g = .ok explicitSrcs → compute_packages g = .ok pkgs →
      compute_sources g = .ok (sortPairs (sourcesAddPackages explicitSrcs pkgs))) ∧
    (∀ (m : List (String × String)) (pkgs : List String) (p : String),
      p ∈ pkgs → (os_path_split p).1 ≠ "" →
      containsA (sourcesAddPackages m pkgs) (normalize_relative_directory p) = true ∨
      lookupA (sourcesAddPackages m pkgs)
        (normalize_relative_directory (os_path_split p).1) = some "") := by
  constructor
  · intro g explicitSrcs pkgs he hp
    unfold compute_sources
    rw [he, hp]
  · intro m pkgs p hmem hdir
    induction pkgs generalizing m with
    | nil => cases hmem
    | cons p0 rest ih =>
      rw [sourcesAddPackages_eq_foldl] at *
      rw [List.foldl_cons]
      rcases List.mem_cons.mp hmem with heq | hmem'
      · subst heq
        by_cases hc : containsA m (normalize_relative_directory p) = true
        · left
          have hstep : containsA (pkgSourceStep m p) (normalize_relative_directory p) = true :=
            containsA_pkgSourceStep_mono m p _ hc
          exact containsA_sourcesAddPackages_mono rest _ _ hstep
        · right
          have hguard : pkgSourceStep m p =
              upsertA m (normalize_relative_directory (os_path_split p).1) "" := by
            unfold pkgSourceStep
            rw [if_pos]
            simp only [Bool.and_eq_true, decide_eq_true_eq, Bool.not_eq_true']
            exact ⟨hdir, by simpa using hc⟩
          have hlk : lookupA (pkgSourceStep m p)
              (normalize_relative_directory (os_path_split p).1) = some "" := by
            rw [hguard]
            exact lookupA_upsertA_self _ _ _
          exact lookupA_sourcesAddPackages_empty_stable rest _ _ hlk
      · exact ih _ hmem'

theorem c4_implicit_sources_amended_witness :
    containsA (sourcesAddPackages [] ["src/pkg"]) (normalize_relative_directory "src/pkg") = true ∨
    lookupA (sourcesAddPackages [] ["src/pkg"])
      (normalize_relative_directory (os_path_split "src/pkg").1) = some "" :=
  c4_implicit_sources_amended.2 [] ["src/pkg"] "src/pkg" (by decide) (by decide)

/-! C5: `hook_config`. -/

/-- The claim's merge model: target-level entries first in their original
order, then global-level entries whose names are not already present,
preserving global order. -/
def hookMergeModel (th gh : List (String × List (String × JVal))) :
    List (String × List (String × JVal)) :=
  th ++ gh.filter (fun nc => !(containsA th nc.1))

/-- The claim's enablement test, in its stated order: force-enable-all, or
the per-hook force-enable switch, or the hook's own `enable-by-default`
option (default true). -/
def hookEnabledModel (environ : List (String × String)) (hook_name : String)
    (config : List (String × JVal)) : Bool :=
  env_var_enabled environ BuildEnvVars.HOOKS_ENABLE false ||
    env_var_enabled environ (BuildEnvVars.HOOK_ENABLE_PREFIX ++ hook_name.toUpper) false ||
    truthy (dictGetD config "enable-by-default" (.bool true))

theorem hookEnabled_model (environ : List (String × String)) (n : String)
    (c : List (String × JVal)) :
    hookEnabled environ (env_var_enabled environ BuildEnvVars.HOOKS_ENABLE false) n c =
      hookEnabledModel environ n c := by
  unfold hookEnabled hookEnabledModel
  cases env_var_enabled environ BuildEnvVars.HOOKS_ENABLE false <;>
    cases truthy (dictGetD c "enable-by-default" (JVal.bool true)) <;>
      cases env_var_enabled environ (BuildEnvVars.HOOK_ENABLE_PREFIX ++ n.toUpper) false <;>
        rfl

/-- Wrap plain hook tables as the configuration values they come from. -/
def asHookDicts (l : List (String × List (String × JVal))) : List (String × JVal) :=
  l.map (fun nc => (nc.1, JVal.dict nc.2))

theorem addTargetHooks_ok (pn : String) (th : List (String × List (String × JVal)))
    (acc : List (String × List (String × JVal))) :
    addTargetHooks pn acc (asHookDicts th) =
      .ok (th.foldl (fun acc nc => upsertA acc nc.1 nc.2) acc) := by
  induction th generalizing acc with
  | nil => rfl
  | cons nc rest ih =>
    have hrec := ih (upsertA acc nc.1 nc.2)
    simp only [asHookDicts, List.map_cons] at hrec ⊢
    simp [addTargetHooks, List.foldl_cons, hrec]

theorem addGlobalHooks_ok (gh : List (String × List (String × JVal)))
    (acc : List (String × List (String × JVal))) :
    addGlobalHooks acc (asHookDicts gh) =
      .ok (gh.foldl (fun acc nc => setdefaultA acc nc.1 nc.2) acc) := by
  induction gh generalizing acc with
  | nil => rfl
  | cons nc rest ih =>
    have hrec := ih (setdefaultA acc nc.1 nc.2)
    simp only [asHookDicts, List.map_cons] at hrec ⊢
    simp [addGlobalHooks, List.foldl_cons, hrec]

theorem upsertA_of_not_contains {α : Type} (m : List (String × α)) (k : String) (v : α)
    (h : containsA m k = false) : upsertA m k v = m ++ [(k, v)] := by
  induction m with
  | nil => rfl
  | cons kv rest ih =>
    simp only [containsA, Bool.or_eq_false_iff, decide_eq_false_iff_not] at h
    simp [upsertA, h.1, ih h.2]

theorem containsA_append {α : Type} (l1 l2 : List (String × α)) (k : String) :
    containsA (l1 ++ l2) k = (containsA l1 k || containsA l2 k) := by
  induction l1 with
  | nil => simp [containsA]
  | cons kv rest ih => simp [containsA, ih, Bool.or_assoc]

theorem foldl_upsertA_nodup {α : Type} (th : List (String × α))
    (acc : List (String × α))
    (hdisj : ∀ nc ∈ th, containsA acc nc.1 = false)
    (hnodup : (th.map Prod.fst).Nodup) :
    th.foldl (fun acc nc => upsertA acc nc.1 nc.2) acc = acc ++ th := by
  induction th generalizing acc with
  | nil => simp
  | cons nc rest ih =>
    rw [List.foldl_cons, upsertA_of_not_contains acc nc.1 nc.2 (hdisj nc (by simp))]
    rw [List.map_cons, List.nodup_cons] at hnodup
    rw [ih (acc ++ [(nc.1, nc.2)]) ?_ hnodup.2]
    · simp
    · intro nc' hm
      rw [containsA_append, hdisj nc' (by simp [hm]), Bool.false_or]
      have hne : nc.1 ≠ nc'.1 := by
        intro hk
        exact hnodup.1 (hk ▸ (List.mem_map.mpr ⟨nc', hm, rfl⟩))
      simp [containsA, hne]

theorem foldl_setdefaultA_nodup {α : Type} (gh : List (String × α))
    (acc : List (String × α)) (hnodup : (gh.map Prod.fst).Nodup) :
    gh.foldl (fun acc nc => setdefaultA acc nc.1 nc.2) acc =
      acc ++ gh.filter (fun nc => !(containsA acc nc.1)) := by
  induction gh generalizing acc with
  | nil => simp
  | cons nc rest ih =>
    rw [List.map_cons, List.nodup_cons] at hnodup
    rw [List.foldl_cons]
    cases hc : containsA acc nc.1
    · rw [show setdefaultA acc nc.1 nc.2 = acc ++ [(nc.1, nc.2)] from by
        simp [setdefaultA, hc]]
      rw [ih (acc ++ [(nc.1, nc.2)]) hnodup.2]
      have hfc : rest.filter (fun nc' => !(containsA (acc ++ [(nc.1, nc.2)]) nc'.1)) =
          rest.filter (fun nc' => !(containsA acc nc'.1)) := by
        apply List.filter_congr
        intro nc' hm
        rw [containsA_append]
        have hne : nc.1 ≠ nc'.1 := by
          intro hk
          exact hnodup.1 (hk ▸ (List.mem_map.mpr ⟨nc', hm, rfl⟩))
        simp [containsA, hne]
      rw [hfc]
      simp [hc, List.append_assoc]
    · rw [show setdefaultA acc nc.1 nc.2 = acc from by simp [setdefaultA, hc]]
      rw [ih acc hnodup.2]
      simp [hc]

/-- C5: merging target-level hook entries first (original order) then
global-level entries whose names are not already present (global order);
the disable-all switch empties the mapping; otherwise a hook appears in the
result exactly when the force-enable-all switch is active, or its per-hook
force-enable switch is active, or its own `enable-by-default` option
(default true) is true — disabled hooks being absent entirely. -/
theorem c5_hook_config (g : Cfg) (th gh : List (String × List (String × JVal)))
    (htg : dictGetD g.target_config "hooks" (.dict []) = .dict (asHookDicts th))
    (hgg : dictGetD g.build_config "hooks" (.dict []) = .dict (asHookDicts gh))
    (hnt : (th.map Prod.fst).Nodup) (hng : (gh.map Prod.fst).Nodup) :
    compute_hook_config g =
      .ok (if env_var_enabled g.environ BuildEnvVars.NO_HOOKS false then []
        else (hookMergeModel th gh).filter
          (fun nc => hookEnabledModel g.environ nc.1 nc.2)) := by
  unfold compute_hook_config
  rw [htg, hgg]
  dsimp only
  rw [addTargetHooks_ok]
  dsimp only
  rw [addGlobalHooks_ok]
  dsimp only
  rw [foldl_upsertA_nodup th [] (fun nc _ => rfl) hnt, List.nil_append,
    foldl_setdefaultA_nodup gh th hng]
  unfold hookMergeModel
  cases hno : env_var_enabled g.environ BuildEnvVars.NO_HOOKS false
  · simp only [Bool.false_eq_true, if_false]
    congr 1
    apply List.filter_congr
    intro nc _
    exact hookEnabled_model g.environ nc.1 nc.2
  · simp

theorem c5_hook_config_witness :
    compute_hook_config
      ⟨"wheel", "/proj",
        [("hooks", .dict [("versioned", .dict [])])],
        [("hooks", .dict [("custom", .dict [("enable-by-default", .bool false)])])],
        [], [], [], [("HATCH_BUILD_HOOK_ENABLE_CUSTOM", "1")], []⟩ =
      .ok (if env_var_enabled [("HATCH_BUILD_HOOK_ENABLE_CUSTOM", "1")]
            BuildEnvVars.NO_HOOKS false then []
        else (hookMergeModel [("custom", [("enable-by-default", .bool false)])]
            [("versioned", [])]).filter
          (fun nc => hookEnabledModel [("HATCH_BUILD_HOOK_ENABLE_CUSTOM", "1")] nc.1 nc.2)) :=
  c5_hook_config _ [("custom", [("enable-by-default", .bool false)])] [("versioned", [])]
    rfl rfl (by decide) (by decide)

/-! C7: pattern-list validation errors and the absence of partial results. -/

theorem validateStrings_append (noun loc : String) (pre : List String) (tail : List JVal)
    (i : Nat) (hpre : ∀ s ∈ pre, s ≠ "") :
    validateStrings noun loc i (pre.map JVal.str ++ tail) =
      match validateStrings noun loc (i + pre.length) tail with
      | .error e => .error e
      | .ok t => .ok (pre ++ t) := by
  induction pre generalizing i with
  | nil =>
    simp only [List.map_nil, List.nil_append, List.length_nil, Nat.add_zero]
    cases validateStrings noun loc i tail <;> rfl
  | cons s ps ih =>
    have hs : s ≠ "" := hpre s (by simp)
    simp only [List.map_cons, List.cons_append, validateStrings, List.append_eq]
    rw [if_neg hs, ih (i + 1) (fun x hx => hpre x (by simp [hx]))]
    have harith : i + 1 + ps.length = i + (ps.length + 1) := by omega
    rw [harith]
    simp only [List.length_cons]
    cases validateStrings noun loc (i + (ps.length + 1)) tail <;> rfl

theorem validateStrings_head_nonstr (noun loc : String) (i : Nat) (v : JVal)
    (rest : List JVal) (hv : ∀ s, v ≠ JVal.str s) :
    validateStrings noun loc i (v :: rest) =
      .error (.typeError (noun ++ " #" ++ toString i ++ " in field `" ++ loc ++
        "` must be a string")) := by
  cases v
  case str s => exact absurd rfl (hv s)
  all_goals rfl

theorem validateStrings_head_empty (noun loc : String) (i : Nat) (rest : List JVal) :
    validateStrings noun loc i (JVal.str "" :: rest) =
      .error (.valueError (noun ++ " #" ++ toString i ++ " in field `" ++ loc ++
        "` cannot be an empty string")) := by
  simp [validateStrings]

theorem memoAcc_get_none {α : Type} (get : Cache → Option α) (set : Cache → α → Cache)
    (compute : Cfg → Except ConfErr α) (g : Cfg) (c : Cache) (h : get c = none) :
    memoAcc get set compute g c =
      (match compute g with
       | .error e => (.error e, c)
       | .ok v => (.ok v, set c v)) := by
  unfold memoAcc
  rw [h]

theorem acc_include_spec_init_error (g : Cfg) (e : ConfErr)
    (h : compute_include_spec g = .error e) :
    acc_include_spec g Cache.init = (.error e, Cache.init) := by
  unfold compute_include_spec at h
  unfold acc_include_spec
  dsimp only [Cache.init]
  dsimp only at h
  split at h
  · split at h
    · injection h with h'
      simp [Cache.init, h']
    · split at h
      · rename_i e2 hpk
        unfold acc_packages
        rw [memoAcc_get_none _ _ _ _ _ rfl, hpk]
        injection h with h'
        simp [Cache.init, h']
      · exact absurd h (by simp)
  · injection h with h'
    simp [Cache.init, h']

theorem acc_exclude_spec_init_error (g : Cfg) (e : ConfErr)
    (h : compute_exclude_spec g = .error e) :
    acc_exclude_spec g Cache.init = (.error e, Cache.init) := by
  unfold compute_exclude_spec at h
  unfold acc_exclude_spec
  dsimp only [Cache.init]
  dsimp only at h
  split at h
  · split at h
    · injection h with h'
      simp [Cache.init, h']
    · split at h
      · rename_i e2 hiv
        unfold acc_ignore_vcs
        rw [memoAcc_get_none _ _ _ _ _ rfl, hiv]
        injection h with h'
        simp [Cache.init, h']
      · exact absurd h (by simp)
  · injection h with h'
    simp [Cache.init, h']

theorem acc_artifact_spec_init_error (g : Cfg) (e : ConfErr)
    (h : compute_artifact_spec g = .error e) :
    acc_artifact_spec g Cache.init = (.error e, Cache.init) := by
  unfold compute_artifact_spec at h
  unfold acc_artifact_spec
  dsimp only [Cache.init]
  dsimp only at h
  split at h
  · split at h
    · injection h with h'
      simp [Cache.init, h']
    · exact absurd h (by simp)
  · injection h with h'
    simp [Cache.init, h']

/-- C7: for each of the include, exclude and artifact pattern lists, a
non-list configured value raises a shape error naming the fully-qualified
key; a non-string element raises a shape error and an empty-string element
a value error, each naming the 1-based element index and the key path
(the first offending element reporting); and on any such error no compiled
spec is produced and the configuration object's backing fields stay
untouched — no partial result. -/
theorem c7_pattern_list_validation :
    (∀ g : Cfg,
      (∀ l, dictGetD (optionTable g "include") "include" default_include ≠ .list l) →
      compute_include_spec g = .error (.typeError ("Field `" ++ optionLocation g "include" ++
        "` must be an array of strings"))) ∧
    (∀ (g : Cfg) (pre : List String) (v : JVal) (rest : List JVal),
      dictGetD (optionTable g "include") "include" default_include =
        .list (pre.map JVal.str ++ v :: rest) →
      (∀ s ∈ pre, s ≠ "") → (∀ s, v ≠ JVal.str s) →
      compute_include_spec g = .error (.typeError ("Pattern #" ++ toString (1 + pre.length) ++
        " in field `" ++ optionLocation g "include" ++ "` must be a string"))) ∧
    (∀ (g : Cfg) (pre : List String) (rest : List JVal),
      dictGetD (optionTable g "include") "include" default_include =
        .list (pre.map JVal.str ++ JVal.str "" :: rest) →
      (∀ s ∈ pre, s ≠ "") →
      compute_include_spec g = .error (.valueError ("Pattern #" ++ toString (1 + pre.length) ++
        " in field `" ++ optionLocation g "include" ++ "` cannot be an empty string"))) ∧
    (∀ (g : Cfg) (e : ConfErr), compute_include_spec g = .error e →
      acc_include_spec g Cache.init = (.error e, Cache.init)) ∧
    (∀ g : Cfg,
      (∀ l, dictGetD (optionTable g "exclude") "exclude" default_exclude ≠ .list l) →
      compute_exclude_spec g = .error (.typeError ("Field `" ++ optionLocation g "exclude" ++
        "` must be an array of strings"))) ∧
    (∀ (g : Cfg) (pre : List String) (v : JVal) (rest : List JVal),
      dictGetD (optionTable g "exclude") "exclude" default_exclude =
        .list (pre.map JVal.str ++ v :: rest) →
      (∀ s ∈ pre, s ≠ "") → (∀ s, v ≠ JVal.str s) →
      compute_exclude_spec g = .error (.typeError ("Pattern #" ++ toString (1 + pre.length) ++
        " in field `" ++ optionLocation g "exclude" ++ "` must be a string"))) ∧
    (∀ (g : Cfg) (pre : List String) (rest : List JVal),
      dictGetD (optionTable g "exclude") "exclude" default_exclude =
        .list (pre.map JVal.str ++ JVal.str "" :: rest) →
      (∀ s ∈ pre, s ≠ "") →
      compute_exclude_spec g = .error (.valueError ("Pattern #" ++ toString (1 + pre.length) ++
        " in field `" ++ optionLocation g "exclude" ++ "` cannot be an empty string"))) ∧
    (∀ (g : Cfg) (e : ConfErr), compute_exclude_spec g = .error e →
      acc_exclude_spec g Cache.init = (.error e, Cache.init)) ∧
    (∀ g : Cfg,
      (∀ l, dictGetD (optionTable g "artifacts") "artifacts" (.list []) ≠ .list l) →
      compute_artifact_spec g = .error (.typeError ("Field `" ++ optionLocation g "artifacts" ++
        "` must be an array of strings"))) ∧
    (∀ (g : Cfg) (pre : List String) (v : JVal) (rest : List JVal),
      dictGetD (optionTable g "artifacts") "artifacts" (.list []) =
        .list (pre.map JVal.str ++ v :: rest) →
      (∀ s ∈ pre, s ≠ "") → (∀ s, v ≠ JVal.str s) →
      compute_artifact_spec g = .error (.typeError ("Pattern #" ++ toString (1 + pre.length) ++
        " in field `" ++ optionLocation g "artifacts" ++ "` must be a string"))) ∧
    (∀ (g : Cfg) (pre : List String) (rest : List JVal),
      dictGetD (optionTable g "artifacts") "artifacts" (.list []) =
        .list (pre.map JVal.str ++ JVal.str "" :: rest) →
      (∀ s ∈ pre, s ≠ "") →
      compute_artifact_spec g = .error (.valueError ("Pattern #" ++ toString (1 + pre.length) ++
        " in field `" ++ optionLocation g "artifacts" ++ "` cannot be an empty string"))) ∧
    (∀ (g : Cfg) (e : ConfErr), compute_artifact_spec g = .error e →
      acc_artifact_spec g Cache.init = (.error e, Cache.init)) := by
  refine ⟨?_, ?_, ?_, acc_include_spec_init_error, ?_, ?_, ?_, acc_exclude_spec_init_error,
    ?_, ?_, ?_, acc_artifact_spec_init_error⟩
  · intro g h
    unfold compute_include_spec
    cases hr : dictGetD (optionTable g "include") "include" default_include
    case list l => exact absurd hr (h l)
    all_goals rfl
  · intro g pre v rest hraw hpre hv
    unfold compute_include_spec
    rw [hraw]
    dsimp only
    rw [validateStrings_append _ _ pre (v :: rest) 1 hpre,
      validateStrings_head_nonstr _ _ _ v rest hv]
    rfl
  · intro g pre rest hraw hpre
    unfold compute_include_spec
    rw [hraw]
    dsimp only
    rw [validateStrings_append _ _ pre (JVal.str "" :: rest) 1 hpre,
      validateStrings_head_empty]
    rfl
  · intro g h
    unfold compute_exclude_spec
    cases hr : dictGetD (optionTable g "exclude") "exclude" default_exclude
    case list l => exact absurd hr (h l)
    all_goals rfl
  · intro g pre v rest hraw hpre hv
    unfold compute_exclude_spec
    rw [hraw]
    dsimp only
    rw [validateStrings_append _ _ pre (v :: rest) 1 hpre,
      validateStrings_head_nonstr _ _ _ v rest hv]
    rfl
  · intro g pre rest hraw hpre
    unfold compute_exclude_spec
    rw [hraw]
    dsimp only
    rw [validateStrings_append _ _ pre (JVal.str "" :: rest) 1 hpre,
      validateStrings_head_empty]
    rfl
  · intro g h
    unfold compute_artifact_spec
    cases hr : dictGetD (optionTable g "artifacts") "artifacts" (.list [])
    case list l => exact absurd hr (h l)
    all_goals rfl
  · intro g pre v rest hraw hpre hv
    unfold compute_artifact_spec
    rw [hraw]
    dsimp only
    rw [validateStrings_append _ _ pre (v :: rest) 1 hpre,
      validateStrings_head_nonstr _ _ _ v rest hv]
    rfl
  · intro g pre rest hraw hpre
    unfold compute_artifact_spec
    rw [hraw]
    dsimp only
    rw [validateStrings_append _ _ pre (JVal.str "" :: rest) 1 hpre,
      validateStrings_head_empty]
    rfl

theorem c7_pattern_list_validation_witness :
    compute_include_spec
      ⟨"wheel", "/proj", [], [("include", .list [.str "ok", .int 5])],
        [], [], [], [], []⟩ =
      .error (.typeError ("Pattern #" ++ toString (1 + ["ok"].length) ++ " in field `" ++
        optionLocation ⟨"wheel", "/proj", [], [("include", .list [.str "ok", .int 5])],
          [], [], [], [], []⟩ "include" ++ "` must be a string")) :=
  c7_pattern_list_validation.2.1
    ⟨"wheel", "/proj", [], [("include", .list [.str "ok", .int 5])], [], [], [], [], []⟩
    ["ok"] (.int 5) [] rfl (by decide) (fun s h => JVal.noConfusion h)

/-! C6: `get_distribution_path`. -/

/-- The claim's model: the first source prefix of the map matching the path
is replaced once by its replacement; no match leaves the path unchanged. -/
def firstMatchModel (m : List (String × String)) (p : String) : String :=
  match m.find? (fun sr => pyStartswith p sr.1) with
  | none => p
  | some sr => sr.2 ++ String.mk (p.toList.drop sr.1.toList.length)

theorem pyReplaceOnce_of_pyStartswith (p s r : String) (h : pyStartswith p s = true) :
    pyReplaceOnce p s r = r ++ String.mk (p.toList.drop s.toList.length) := by
  unfold pyStartswith at h
  unfold pyReplaceOnce findSub
  rw [if_pos h]
  apply String.ext
  simp [String.data_append]

theorem distLoop_firstMatch (m : List (String × String)) (p : String) :
    distLoop m p = firstMatchModel m p := by
  induction m with
  | nil => rfl
  | cons sr rest ih =>
    rcases sr with ⟨s, r⟩
    unfold distLoop firstMatchModel
    cases hs : pyStartswith p s
    · simp only [Bool.false_eq_true, if_false, List.find?]
      rw [hs]
      exact ih
    · simp only [if_true, List.find?]
      rw [hs]
      exact pyReplaceOnce_of_pyStartswith p s r hs

theorem mem_insertSortedPair (x p : String × String) (l : List (String × String))
    (h : x ∈ insertSortedPair p l) : x = p ∨ x ∈ l := by
  induction l with
  | nil => simpa [insertSortedPair] using h
  | cons q rest ih =>
    unfold insertSortedPair at h
    split at h
    · rcases List.mem_cons.mp h with h | h
      · left
        exact h
      · right
        exact h
    · rcases List.mem_cons.mp h with h | h
      · right
        exact List.mem_cons.mpr (Or.inl h)
      · rcases ih h with h | h
        · left
          exact h
        · right
          exact List.mem_cons.mpr (Or.inr h)

theorem pairwise_insertSortedPair (p : String × String) (l : List (String × String))
    (h : l.Pairwise (fun a b => a.1 ≤ b.1)) :
    (insertSortedPair p l).Pairwise (fun a b => a.1 ≤ b.1) := by
  induction l with
  | nil => simp [insertSortedPair]
  | cons q rest ih =>
    rcases List.pairwise_cons.mp h with ⟨hq, hrest⟩
    unfold insertSortedPair
    split
    · rename_i hle
      refine List.pairwise_cons.mpr ⟨?_, h⟩
      intro x hx
      rcases List.mem_cons.mp hx with hx | hx
      · rw [hx]
        exact hle
      · exact le_trans hle (hq x hx)
    · rename_i hgt
      refine List.pairwise_cons.mpr ⟨?_, ih hrest⟩
      intro x hx
      rcases mem_insertSortedPair x p rest hx with hx | hx
      · rw [hx]
        exact le_of_not_le hgt
      · exact hq x hx

theorem pairwise_sortPairs (l : List (String × String)) :
    (sortPairs l).Pairwise (fun a b => a.1 ≤ b.1) := by
  induction l with
  | nil => simp [sortPairs]
  | cons p rest ih => exact pairwise_insertSortedPair p (sortPairs rest) ih

/-- C6: `get_distribution_path` returns the path with the first source
prefix it starts with — scanning the source map, which is sorted by key —
replaced once by that source's replacement, and returns the path unchanged
when no source prefix matches. -/
theorem c6_get_distribution_path (g : Cfg) :
    (∀ (m : List (String × String)) (p : String),
      compute_sources g = .ok m → get_distribution_path g p = .ok (firstMatchModel m p)) ∧
    (∀ m : List (String × String),
      compute_sources g = .ok m → m.Pairwise (fun a b => a.1 ≤ b.1)) := by
  constructor
  · intro m p h
    unfold get_distribution_path
    rw [h]
    simp only [distLoop_firstMatch]
  · intro m h
    unfold compute_sources at h
    split at h
    · cases h
    · split at h
      · cases h
      · injection h with h'
        rw [← h']
        exact pairwise_sortPairs _

theorem c6_get_distribution_path_witness :
    get_distribution_path
      ⟨"wheel", "/proj", [],
        [("sources", .list [.str "src"]), ("packages", .list [.str "src/pkg"])],
        [], [], [], [], []⟩ "src/pkg/mod.py" =
      .ok (firstMatchModel [("src/", "")] "src/pkg/mod.py") :=
  (c6_get_distribution_path _).1 [("src/", "")] "src/pkg/mod.py" rfl

/-! C10: error behaviour of the memoization layer. -/

/-- A first access of a memoized property from a fresh configuration object
that errors leaves the property's own backing fields untouched, and a
second access recomputes and raises the same error. -/
def accFirstErrorClean {α : Type} (acc : Cfg → Cache → Except ConfErr α × Cache)
    (ownUnset : Cache → Prop) : Prop :=
  ∀ (g : Cfg) (e : ConfErr), (acc g Cache.init).1 = .error e →
    ownUnset ((acc g Cache.init).2) ∧ (acc g ((acc g Cache.init).2)).1 = .error e

theorem memoAcc_init_stable {α : Type} (get : Cache → Option α) (set : Cache → α → Cache)
    (compute : Cfg → Except ConfErr α) (hget : get Cache.init = none) :
    ∀ (g : Cfg) (e : ConfErr), (memoAcc get set compute g Cache.init).1 = .error e →
      memoAcc get set compute g Cache.init = (.error e, Cache.init) := by
  intro g e h
  rw [memoAcc_get_none _ _ _ _ _ hget] at h ⊢
  cases hc : compute g <;> rw [hc] at h <;> dsimp only at h ⊢
  · rw [← h]
  · cases h

/-- The cache after `require_runtime_dependencies` has been stored. -/
def cacheR (rrd : Bool) : Cache :=
  { Cache.init with c_require_runtime_dependencies := some rrd }

/-- The cache after `require_runtime_dependencies` and `hook_config` have
been stored. -/
def cacheRH (rrd : Bool) (hooks : List (String × List (String × JVal))) : Cache :=
  { cacheR rrd with c_hook_config := some hooks }

/-- A target table whose global level declares a non-table `hooks` value:
`dependencies` first caches `require_runtime_dependencies`, then raises
while resolving `hook_config`. -/
def cfgC10 : Cfg :=
  ⟨"wheel", "/proj", [("hooks", .int 5)], [], [], [], [], [], []⟩

/-- C10 counterexample: a failing first access of `dependencies` raises the
hook-table shape error, yet the configuration object's backing field for
`require_runtime_dependencies` has been set (it is no longer unset), so the
cached backing fields are not all left unchanged. -/
theorem c10_caching_counterexample :
    (acc_dependencies cfgC10 Cache.init).1 =
      .error (.typeError "Field `tool.hatch.build.hooks` must be a table") ∧
    (acc_dependencies cfgC10 Cache.init).2.c_require_runtime_dependencies = some false :=
  ⟨rfl, rfl⟩

theorem acc_dependencies_init_error (g : Cfg) (e : ConfErr)
    (h : (acc_dependencies g Cache.init).1 = .error e) :
    (acc_dependencies g Cache.init).2.c_dependencies = none ∧
    (acc_dependencies g ((acc_dependencies g Cache.init).2)).1 = .error e := by
  cases hdb : depsBase g
  case error e1 =>
    have hacc : acc_dependencies g Cache.init = (.error e1, Cache.init) := by
      unfold acc_dependencies
      dsimp only [Cache.init]
      rw [hdb]
    rw [hacc] at h
    dsimp only at h
    rw [hacc]
    dsimp only
    rw [hacc]
    exact ⟨rfl, h⟩
  case ok base =>
    cases hrv : compute_require_runtime_dependencies g
    case error e2 =>
      have hacc : acc_dependencies g Cache.init = (.error e2, Cache.init) := by
        unfold acc_dependencies
        dsimp only [Cache.init]
        rw [hdb]
        dsimp only
        unfold acc_require_runtime_dependencies
        rw [memoAcc_get_none _ _ _ _ _ rfl, hrv]
      rw [hacc] at h
      dsimp only at h
      rw [hacc]
      dsimp only
      rw [hacc]
      exact ⟨rfl, h⟩
    case ok rrd =>
      cases hhc : compute_hook_config g
      case error e3 =>
        have hacc : acc_dependencies g Cache.init = (.error e3, cacheR rrd) := by
          unfold acc_dependencies
          dsimp only [Cache.init]
          rw [hdb]
          dsimp only
          unfold acc_require_runtime_dependencies
          rw [memoAcc_get_none _ _ _ _ _ rfl, hrv]
          dsimp only
          unfold acc_hook_config
          rw [memoAcc_get_none _ _ _ _ _ rfl, hhc]
          rfl
        have hacc2 : acc_dependencies g (cacheR rrd) = (.error e3, cacheR rrd) := by
          unfold acc_dependencies cacheR
          dsimp only [Cache.init]
          rw [hdb]
          dsimp only
          unfold acc_require_runtime_dependencies memoAcc
          dsimp only [Cache.init]
          unfold acc_hook_config
          rw [memoAcc_get_none _ _ _ _ _ rfl, hhc]
        rw [hacc] at h
        dsimp only at h
        rw [hacc]
        dsimp only
        rw [hacc2]
        exact ⟨rfl, h⟩
      case ok hooks =>
        cases hdh : depsHooks rrd base hooks
        case error e4 =>
          have hacc : acc_dependencies g Cache.init = (.error e4, cacheRH rrd hooks) := by
            unfold acc_dependencies
            dsimp only [Cache.init]
            rw [hdb]
            dsimp only
            unfold acc_require_runtime_dependencies
            rw [memoAcc_get_none _ _ _ _ _ rfl, hrv]
            dsimp only
            unfold acc_hook_config
            rw [memoAcc_get_none _ _ _ _ _ rfl, hhc]
            dsimp only
            rw [hdh]
            rfl
          have hacc2 : acc_dependencies g (cacheRH rrd hooks) =
              (.error e4, cacheRH rrd hooks) := by
            unfold acc_dependencies cacheRH cacheR
            dsimp only [Cache.init]
            rw [hdb]
            dsimp only
            unfold acc_require_runtime_dependencies memoAcc
            dsimp only [Cache.init]
            unfold acc_hook_config memoAcc
            dsimp only [Cache.init]
            rw [hdh]
          rw [hacc] at h
          dsimp only at h
          rw [hacc]
          dsimp only
          rw [hacc2]
          exact ⟨rfl, h⟩
        case ok rd =>
          have hacc : (acc_dependencies g Cache.init).1 =
              .ok (if rd.1 then insertAllNew rd.2 g.core_dependencies else rd.2) := by
            unfold acc_dependencies
            dsimp only [Cache.init]
            rw [hdb]
            dsimp only
            unfold acc_require_runtime_dependencies
            rw [memoAcc_get_none _ _ _ _ _ rfl, hrv]
            dsimp only
            unfold acc_hook_config
            rw [memoAcc_get_none _ _ _ _ _ rfl, hhc]
            dsimp only
            rw [hdh]
          rw [hacc] at h
          cases h

theorem accFirstErrorClean_of_eq {α : Type} (acc : Cfg → Cache → Except ConfErr α × Cache)
    (ownUnset : Cache → Prop) (hinit : ownUnset Cache.init)
    (hstable : ∀ g e, (acc g Cache.init).1 = .error e →
      acc g Cache.init = (.error e, Cache.init)) :
    accFirstErrorClean acc ownUnset := by
  intro g e h
  rw [hstable g e h]
  exact ⟨hinit, h⟩

theorem acc_include_spec_init_stable (g : Cfg) (e : ConfErr)
    (h : (acc_include_spec g Cache.init).1 = .error e) :
    acc_include_spec g Cache.init = (.error e, Cache.init) := by
  unfold acc_include_spec at h ⊢
  dsimp only [Cache.init] at h ⊢
  cases hraw : dictGetD (optionTable g "include") "include" default_include <;>
    rw [hraw] at h <;> dsimp only at h ⊢
  case str => rw [← h]
  case bool => rw [← h]
  case int => rw [← h]
  case dict => rw [← h]
  case list items =>
  cases hval : validateStrings "Pattern" (optionLocation g "include") 1 items <;>
    rw [hval] at h <;> dsimp only at h ⊢
  case error e1 => rw [← h]
  case ok pats =>
  unfold acc_packages at h ⊢
  rw [memoAcc_get_none _ _ _ _ _ rfl] at h ⊢
  cases hpk : compute_packages g <;> rw [hpk] at h <;> dsimp only at h ⊢
  case error e2 => rw [← h]
  case ok pkgs => cases h

theorem acc_exclude_spec_init_stable (g : Cfg) (e : ConfErr)
    (h : (acc_exclude_spec g Cache.init).1 = .error e) :
    acc_exclude_spec g Cache.init = (.error e, Cache.init) := by
  unfold acc_exclude_spec at h ⊢
  dsimp only [Cache.init] at h ⊢
  cases hraw : dictGetD (optionTable g "exclude") "exclude" default_exclude <;>
    rw [hraw] at h <;> dsimp only at h ⊢
  case str => rw [← h]
  case bool => rw [← h]
  case int => rw [← h]
  case dict => rw [← h]
  case list items =>
  cases hval : validateStrings "Pattern" (optionLocation g "exclude") 1 items <;>
    rw [hval] at h <;> dsimp only at h ⊢
  case error e1 => rw [← h]
  case ok pats =>
  unfold acc_ignore_vcs at h ⊢
  rw [memoAcc_get_none _ _ _ _ _ rfl] at h ⊢
  cases hiv : compute_ignore_vcs g <;> rw [hiv] at h <;> dsimp only at h ⊢
  case error e2 => rw [← h]
  case ok iv => cases h

theorem acc_artifact_spec_init_stable (g : Cfg) (e : ConfErr)
    (h : (acc_artifact_spec g Cache.init).1 = .error e) :
    acc_artifact_spec g Cache.init = (.error e, Cache.init) := by
  unfold acc_artifact_spec at h ⊢
  dsimp only [Cache.init] at h ⊢
  cases hraw : dictGetD (optionTable g "artifacts") "artifacts" (.list []) <;>
    rw [hraw] at h <;> dsimp only at h ⊢
  case str => rw [← h]
  case bool => rw [← h]
  case int => rw [← h]
  case dict => rw [← h]
  case list items =>
  cases hval : validateStrings "Pattern" (optionLocation g "artifacts") 1 items <;>
    rw [hval] at h <;> dsimp only at h ⊢
  case error e1 => rw [← h]
  case ok pats => cases h

theorem acc_sources_init_stable (g : Cfg) (e : ConfErr)
    (h : (acc_sources g Cache.init).1 = .error e) :
    acc_sources g Cache.init = (.error e, Cache.init) := by
  unfold acc_sources at h ⊢
  dsimp only [Cache.init] at h ⊢
  cases hex : sourcesExplicit g <;> rw [hex] at h <;> dsimp only at h ⊢
  case error e1 => rw [← h]
  case ok explicitSrcs =>
  unfold acc_packages at h ⊢
  rw [memoAcc_get_none _ _ _ _ _ rfl] at h ⊢
  cases hpk : compute_packages g <;> rw [hpk] at h <;> dsimp only at h ⊢
  case error e2 => rw [← h]
  case ok pkgs => cases h

/-- C10 amended: when the first access of a memoized property raises a
shape or value error, the property's own backing fields are left unchanged
(still unset) and a subsequent access of the same property with the same
inputs performs the computation again and raises the same error; however,
sub-properties resolved successfully during the failed computation (such as
`require_runtime_dependencies` and `hook_config` during a failing
`dependencies` access) may already have been cached. -/
theorem c10_error_memoization_amended :
    accFirstErrorClean acc_include_spec
      (fun c => c.c_include_spec = none ∧ c.c_include_patterns = none) ∧
    accFirstErrorClean acc_exclude_spec
      (fun c => c.c_exclude_spec = none ∧ c.c_exclude_patterns = none) ∧
    accFirstErrorClean acc_artifact_spec
      (fun c => c.c_artifact_spec = none ∧ c.c_artifact_patterns = none) ∧
    accFirstErrorClean acc_hook_config (fun c => c.c_hook_config = none) ∧
    accFirstErrorClean acc_versions (fun c => c.c_versions = none) ∧
    accFirstErrorClean acc_dependencies (fun c => c.c_dependencies = none) ∧
    accFirstErrorClean acc_sources (fun c => c.c_sources = none) ∧
    accFirstErrorClean acc_packages (fun c => c.c_packages = none) ∧
    accFirstErrorClean acc_force_include (fun c => c.c_force_include = none) ∧
    accFirstErrorClean acc_directory (fun c => c.c_directory = none) ∧
    accFirstErrorClean acc_ignore_vcs (fun c => c.c_ignore_vcs = none) ∧
    accFirstErrorClean acc_only_packages (fun c => c.c_only_packages = none) ∧
    accFirstErrorClean acc_reproducible (fun c => c.c_reproducible = none) ∧
    accFirstErrorClean acc_dev_mode_dirs (fun c => c.c_dev_mode_dirs = none) ∧
    accFirstErrorClean acc_dev_mode_exact (fun c => c.c_dev_mode_exact = none) ∧
    accFirstErrorClean acc_require_runtime_dependencies
      (fun c => c.c_require_runtime_dependencies = none) := by
  refine ⟨accFirstErrorClean_of_eq _ _ ⟨rfl, rfl⟩ acc_include_spec_init_stable,
    accFirstErrorClean_of_eq _ _ ⟨rfl, rfl⟩ acc_exclude_spec_init_stable,
    accFirstErrorClean_of_eq _ _ ⟨rfl, rfl⟩ acc_artifact_spec_init_stable,
    accFirstErrorClean_of_eq _ _ rfl (memoAcc_init_stable _ _ _ rfl),
    accFirstErrorClean_of_eq _ _ rfl (memoAcc_init_stable _ _ _ rfl),
    ?_,
    accFirstErrorClean_of_eq _ _ rfl acc_sources_init_stable,
    accFirstErrorClean_of_eq _ _ rfl (memoAcc_init_stable _ _ _ rfl),
    accFirstErrorClean_of_eq _ _ rfl (memoAcc_init_stable _ _ _ rfl),
    accFirstErrorClean_of_eq _ _ rfl (memoAcc_init_stable _ _ _ rfl),
    accFirstErrorClean_of_eq _ _ rfl (memoAcc_init_stable _ _ _ rfl),
    accFirstErrorClean_of_eq _ _ rfl (memoAcc_init_stable _ _ _ rfl),
    accFirstErrorClean_of_eq _ _ rfl (memoAcc_init_stable _ _ _ rfl),
    accFirstErrorClean_of_eq _ _ rfl (memoAcc_init_stable _ _ _ rfl),
    accFirstErrorClean_of_eq _ _ rfl (memoAcc_init_stable _ _ _ rfl),
    accFirstErrorClean_of_eq _ _ rfl (memoAcc_init_stable _ _ _ rfl)⟩
  intro g e h
  exact acc_dependencies_init_error g e h

/-- A target table selecting an unknown version identifier. -/
def cfgC10v : Cfg :=
  ⟨"wheel", "/proj", [], [("versions", .list [.str "bad"])],
   ["standard"], ["standard"], [], [], []⟩

theorem c10_error_memoization_amended_witness :
    (acc_versions cfgC10v Cache.init).2.c_versions = none ∧
    (acc_versions cfgC10v ((acc_versions cfgC10v Cache.init).2)).1 =
      .error (.valueError
        "Unknown versions in field `tool.hatch.build.targets.wheel.versions`: bad") :=
  c10_error_memoization_amended.2.2.2.2.1 cfgC10v
    (.valueError "Unknown versions in field `tool.hatch.build.targets.wheel.versions`: bad")
    (by rfl)

theorem validateStrings_all_ok (noun loc : String) (i : Nat) (vs : List String)
    (h : ∀ s ∈ vs, s ≠ "") :
    validateStrings noun loc i (vs.map JVal.str) = .ok vs := by
  induction vs generalizing i with
  | nil => rfl
  | cons s rest ih =>
    simp only [List.map_cons, validateStrings]
    rw [if_neg (h s (by simp)), ih (i + 1) (fun x hx => h x (by simp [hx]))]

/-- C8: a non-empty configured `versions` list containing identifiers the
builder does not know raises a value error listing the unknown identifiers
sorted and deduplicated; an empty (or absent) configured list falls back to
the builder's default versions without raising. -/
theorem c8_versions_validation :
    (∀ (g : Cfg) (vs : List String),
      dictGetD g.target_config "versions" (.list []) = .list (vs.map JVal.str) →
      (∀ s ∈ vs, s ≠ "") →
      insertAllNew [] vs ≠ [] →
      (insertAllNew [] vs).filter (fun v => !g.builder_version_api_keys.contains v) ≠ [] →
      compute_versions g = .error (.valueError
        ("Unknown versions in field `" ++
          ("tool.hatch.build.targets." ++ g.plugin_name ++ ".versions") ++ "`: " ++
          String.intercalate ", " (sortStrings ((insertAllNew [] vs).filter
            (fun v => !g.builder_version_api_keys.contains v)))))) ∧
    (∀ g : Cfg,
      dictGetD g.target_config "versions" (.list []) = .list [] →
      compute_versions g = .ok (insertAllNew [] g.builder_default_versions)) := by
  constructor
  · intro g vs hraw hne h1 h2
    unfold compute_versions
    rw [hraw]
    dsimp only
    rw [validateStrings_all_ok _ _ _ _ hne]
    dsimp only
    have h1' : (insertAllNew [] vs).isEmpty = false := by
      cases hl : insertAllNew [] vs
      · exact absurd hl h1
      · rfl
    have h2' : ((insertAllNew [] vs).filter
        (fun v => !g.builder_version_api_keys.contains v)).isEmpty = false := by
      cases hl : (insertAllNew [] vs).filter (fun v => !g.builder_version_api_keys.contains v)
      · exact absurd hl h2
      · rfl
    rw [h1', h2']
    rfl
  · intro g hraw
    unfold compute_versions
    rw [hraw]
    rfl

theorem c8_versions_validation_witness :
    compute_versions
      ⟨"wheel", "/proj", [], [("versions", .list [.str "b", .str "a", .str "b"])],
        ["standard"], ["standard"], [], [], []⟩ =
      .error (.valueError
        ("Unknown versions in field `" ++
          ("tool.hatch.build.targets." ++ "wheel" ++ ".versions") ++ "`: " ++
          String.intercalate ", " (sortStrings ((insertAllNew [] ["b", "a", "b"]).filter
            (fun v => !(["standard"] : List String).contains v))))) :=
  c8_versions_validation.1
    ⟨"wheel", "/proj", [], [("versions", .list [.str "b", .str "a", .str "b"])],
      ["standard"], ["standard"], [], [], []⟩
    ["b", "a", "b"] rfl (by decide) (by decide) (by decide)

/-! C9: the package-derived include patterns. -/

theorem charSlashMap (l : List Char) :
    l.map (fun c => if c = osSepChar then '/' else c) = l := by
  induction l with
  | nil => rfl
  | cons c cs ih =>
    simp only [List.map_cons, ih]
    by_cases h : c = osSepChar
    · rw [if_pos h, h]
      rfl
    · rw [if_neg h]

theorem sepToSlash_id (s : String) : sepToSlash s = s := by
  unfold sepToSlash
  rw [charSlashMap]
  rfl

theorem toList_slash_wrap (p : String) :
    ("/" ++ p ++ "/").toList = '/' :: (p.toList ++ ['/']) := by
  show ("/" ++ p ++ "/").data = '/' :: (p.data ++ ['/'])
  rw [String.data_append, String.data_append]
  rfl

theorem toList_path_concat (p r : String) :
    (p ++ "/" ++ r).toList = p.toList ++ '/' :: r.toList := by
  show (p ++ "/" ++ r).data = p.data ++ '/' :: r.data
  rw [String.data_append, String.data_append]
  simp

theorem splitChars_ne_nil (l : List Char) : splitChars l ≠ [] := by
  cases l with
  | nil => simp [splitChars]
  | cons c cs =>
    unfold splitChars
    by_cases h : c = '/'
    · simp [h]
    · rw [if_neg h]
      cases splitChars cs <;> simp

theorem splitChars_cons (c : Char) (rest : List Char) :
    splitChars (c :: rest) =
      if c = '/' then [] :: splitChars rest
      else
        match splitChars rest with
        | [] => [[c]]
        | s :: ss => (c :: s) :: ss := rfl

theorem splitChars_append (xs ys : List Char) :
    splitChars (xs ++ '/' :: ys) = splitChars xs ++ splitChars ys := by
  induction xs with
  | nil =>
    show splitChars ('/' :: ys) = splitChars [] ++ splitChars ys
    rw [splitChars_cons, if_pos rfl]
    rfl
  | cons c cs ih =>
    show splitChars (c :: (cs ++ '/' :: ys)) = splitChars (c :: cs) ++ splitChars ys
    rw [splitChars_cons, splitChars_cons, ih]
    by_cases h : c = '/'
    · rw [if_pos h, if_pos h]
      rfl
    · rw [if_neg h, if_neg h]
      obtain ⟨s, ss, hx⟩ : ∃ s ss, splitChars cs = s :: ss := by
        cases hc : splitChars cs
        · exact absurd hc (splitChars_ne_nil cs)
        · exact ⟨_, _, rfl⟩
      rw [hx]
      rfl

theorem segGlob_self (s : List Char) : segGlob s s = true := by
  induction s with
  | nil => rfl
  | cons c cs ih =>
    unfold segGlob
    by_cases h1 : c = '*'
    · rw [if_pos h1]
      refine List.any_eq_true.mpr ⟨1, List.mem_range.mpr (by simp), ?_⟩
      subst h1
      simpa using ih
    · rw [if_neg h1]
      by_cases h2 : c = '?'
      · rw [if_pos h2]
        exact ih
      · rw [if_neg h2]
        simp [ih]

theorem matchSegsHere_self_append (segs extra : List (List Char)) (h : extra ≠ []) :
    matchSegsHere segs true (segs ++ extra) = true := by
  induction segs with
  | nil =>
    cases extra
    · exact absurd rfl h
    · rfl
  | cons s ss ih =>
    show matchSegsHere (s :: ss) true (s :: (ss ++ extra)) = true
    unfold matchSegsHere
    rw [segGlob_self, ih]
    rfl

theorem parsePattern_pkg (p : String) :
    parsePattern ("/" ++ p ++ "/") = some ⟨false, true, true, splitChars p.toList⟩ := by
  unfold parsePattern
  rw [toList_slash_wrap]
  dsimp only
  rw [if_neg (by decide)]
  simp only [show (('/' : Char) == '!') = false from rfl, Bool.false_eq_true, if_false,
    List.head?_cons, show ((some '/' : Option Char) == some '/') = true from rfl, if_true,
    List.tail_cons, List.getLast?_concat, List.dropLast_concat, Bool.true_or]

theorem pkgPattern_matches (p rest : String) :
    (ParsedPattern.mk false true true (splitChars p.toList)).matches (p ++ "/" ++ rest) = true := by
  unfold ParsedPattern.matches segsOf
  dsimp only
  rw [toList_path_concat, splitChars_append]
  exact matchSegsHere_self_append _ _ (splitChars_ne_nil _)

theorem foldl_matchStep_true (path : String) (l : List String)
    (hall : ∀ q ∈ l, ∀ pp, parsePattern q = some pp → pp.negated = false) :
    List.foldl (matchStep path) true l = true := by
  induction l with
  | nil => rfl
  | cons q rest ih =>
    rw [List.foldl_cons]
    have hstep : matchStep path true q = true := by
      unfold matchStep
      cases hp : parsePattern q
      · rfl
      · rename_i pp
        dsimp only
        rw [hall q (by simp) pp hp]
        cases pp.matches path <;> simp
    rw [hstep]
    exact ih (fun q' hq' => hall q' (by simp [hq']))

theorem foldl_matchStep_hit (path : String) (l : List String)
    (hall : ∀ q ∈ l, ∀ pp, parsePattern q = some pp → pp.negated = false)
    (hwit : ∃ q ∈ l, ∃ pp, parsePattern q = some pp ∧ pp.matches path = true) :
    ∀ init : Bool, List.foldl (matchStep path) init l = true := by
  induction l with
  | nil => simp at hwit
  | cons q rest ih =>
    intro init
    rw [List.foldl_cons]
    rcases hwit with ⟨q', hq', pp, hpp, hm⟩
    rcases List.mem_cons.mp hq' with heq | hmem
    · subst heq
      have hstep : matchStep path init q' = true := by
        unfold matchStep
        rw [hpp]
        dsimp only
        rw [hm, hall q' (by simp) pp hpp]
        simp
      rw [hstep]
      exact foldl_matchStep_true path rest (fun x hx => hall x (by simp [hx]))
    · exact ih (fun x hx => hall x (by simp [hx])) ⟨q', hmem, pp, hpp, hm⟩ _

theorem matchFile_append_hit (l1 l2 : List String) (path : String)
    (hall : ∀ q ∈ l2, ∀ pp, parsePattern q = some pp → pp.negated = false)
    (hwit : ∃ q ∈ l2, ∃ pp, parsePattern q = some pp ∧ pp.matches path = true) :
    matchFile (l1 ++ l2) path = true := by
  unfold matchFile
  rw [List.foldl_append]
  exact foldl_matchStep_hit path l2 hall hwit _

/-- C9: for every declared package, the compiled include spec contains the
root-anchored directory pattern `/<package>/` (separators normalised), so
every path below a declared package satisfies the include-spec side of
`include_path` even when no include patterns are configured. -/
theorem c9_package_patterns (g : Cfg) (pkgs : List String) (osp : Option PathSpec)
    (p : String) (hp : compute_packages g = .ok pkgs)
    (hs : compute_include_spec g = .ok osp) (hmem : p ∈ pkgs) :
    ∃ lines, osp = some lines ∧ ("/" ++ p ++ "/") ∈ lines ∧
      ∀ rest : String, path_is_included g (p ++ "/" ++ rest) = .ok true := by
  have hs0 := hs
  unfold compute_include_spec at hs
  dsimp only at hs
  cases hraw : dictGetD (optionTable g "include") "include" default_include <;>
    rw [hraw] at hs <;> dsimp only at hs
  case str => cases hs
  case bool => cases hs
  case int => cases hs
  case dict => cases hs
  case list items =>
  cases hval : validateStrings "Pattern" (optionLocation g "include") 1 items <;>
    rw [hval] at hs <;> dsimp only at hs
  case error => cases hs
  case ok pats =>
  rw [hp] at hs
  dsimp only at hs
  have hmem2 : ("/" ++ p ++ "/") ∈
      pkgs.map (fun relative_path => "/" ++ sepToSlash relative_path ++ "/") :=
    List.mem_map.mpr ⟨p, hmem, by rw [sepToSlash_id]⟩
  have hne : (pats ++ pkgs.map
      (fun relative_path => "/" ++ sepToSlash relative_path ++ "/")).isEmpty = false := by
    have hmem3 := List.mem_append_right pats hmem2
    cases hl : pats ++ pkgs.map (fun relative_path => "/" ++ sepToSlash relative_path ++ "/")
    · rw [hl] at hmem3
      cases hmem3
    · rfl
  rw [hne] at hs
  simp only [Bool.false_eq_true, if_false] at hs
  injection hs with hosp
  refine ⟨_, hosp.symm, List.mem_append_right pats hmem2, ?_⟩
  intro rest
  unfold path_is_included
  rw [hs0, ← hosp]
  dsimp only
  have hall : ∀ q ∈ pkgs.map (fun relative_path => "/" ++ sepToSlash relative_path ++ "/"),
      ∀ pp, parsePattern q = some pp → pp.negated = false := by
    intro q hq pp hpp
    rcases List.mem_map.mp hq with ⟨rp, _, hrp⟩
    rw [← hrp, sepToSlash_id, parsePattern_pkg] at hpp
    injection hpp with h'
    rw [← h']
  have hwit : ∃ q ∈ pkgs.map (fun relative_path => "/" ++ sepToSlash relative_path ++ "/"),
      ∃ pp, parsePattern q = some pp ∧ pp.matches (p ++ "/" ++ rest) = true :=
    ⟨"/" ++ p ++ "/", hmem2, ⟨false, true, true, splitChars p.toList⟩,
      parsePattern_pkg p, pkgPattern_matches p rest⟩
  rw [matchFile_append_hit pats _ _ hall hwit]

theorem c9_package_patterns_witness :
    ∃ lines, (some ["/src/pkg/"] : Option PathSpec) = some lines ∧
      ("/" ++ "src/pkg" ++ "/") ∈ lines ∧
      ∀ rest : String,
        path_is_included
          ⟨"wheel", "/proj", [("packages", .list [.str "src/pkg"])], [], [], [], [], [], []⟩
          ("src/pkg" ++ "/" ++ rest) = .ok true :=
  c9_package_patterns
    ⟨"wheel", "/proj", [("packages", .list [.str "src/pkg"])], [], [], [], [], [], []⟩
    ["src/pkg"] (some ["/src/pkg/"]) "src/pkg" rfl rfl (by decide)

theorem c2_overlay_lifecycle_witness :
    include_path (overlayEnter ⟨cfgEmpty, none, []⟩ ["*.so"] [("a", "b")]) "x.so" false =
      .ok true :=
  ((c2_overlay_lifecycle.2.2 Unit ⟨cfgEmpty, none, []⟩
      [("artifacts", .list [.str "*.so"]), ("force-include", .dict [("a", .str "b")])]
      (fun st => ((none : Option Unit), st))
      [.str "*.so"] ["*.so"] [("a", .str "b")] [("a", "b")]
      rfl rfl rfl rfl rfl).2.1) "x.so" false (by decide)

theorem c1_include_path_precedence_witness :
    include_path ⟨cfgEmpty, none, []⟩ "x.py" true =
      .ok (specMatches none "x.py" ||
        (specMatches none "x.py" ||
          (!(false && !true) && (specMatchesD none "x.py" &&
            !specMatches (some [".git", "__pycache__", "*.py[cod]"]) "x.py")))) :=
  c1_include_path_precedence cfgEmpty none [] "x.py" true none none
    (some [".git", "__pycache__", "*.py[cod]"]) false rfl rfl rfl rfl

end Hatch
